import Mathlib

/-!
Verification of the chat relay server's connection/identity lifecycle.

The definitions below are shallow embeddings of the JavaScript source:

* Namespace `Chat` models the grace-period server revision (the revision
  embedded in `test/server-logout.test.js`, also present in
  `terminal-client.js`): state maps `clients`, `deviceToUsername`,
  `activeUsernames`, `disconnectionTimeouts`, `messageHistory`,
  `rateLimits`, `bannedDevices`, and the functions `sanitizeUsername`,
  `generateUniqueUsername`, `isSpamming`, `isDeviceBanned`, `banDevice`,
  `scheduleCleanup`, `cancelScheduledCleanup`, `immediateCleanup`,
  `broadcast`, the `auth`/`logout`/`/kick` message handlers and the
  grace-period timer callback.

* Namespace `Srv` models the `deviceConnections` revision of `server.js`
  (the revision whose `auth` handler preempts an existing open connection
  of the same device), as a transition system with a reachability
  predicate.

JavaScript `Map`s are modelled as association lists (`Map.set` updates in
place or appends, `Map.delete` removes the unique entry), `Set`s as
duplicate-free lists, `Date.now()` as an explicit `Nat` millisecond
parameter, and a timer as the entry that the code stores in the timeout
map: the timer-fired event is a separate step that is enabled only while
the entry is present (`clearTimeout` removes it; the code's
cancel-before-reschedule discipline keeps the stored entry's data equal to
the pending callback's captured variables).  WebSocket `close()` is
modelled as removing the socket from the set of open sockets;
`readyState === OPEN` is membership in that set.  The fields `broadcasts`
and `deliveries` are observation traces: `broadcasts` records every
`broadcast(msg)` call, `deliveries` every `(recipient, msg)` pair actually
fanned out.
-/

/-! ### Association-list maps and list sets (JavaScript Map / Set) -/

def lookupA {α β : Type} [DecidableEq α] : List (α × β) → α → Option β
  | [], _ => none
  | (k, v) :: rest, key => if key = k then some v else lookupA rest key

def insertA {α β : Type} [DecidableEq α] : List (α × β) → α → β → List (α × β)
  | [], k, v => [(k, v)]
  | (k', v') :: rest, k, v =>
      if k = k' then (k, v) :: rest else (k', v') :: insertA rest k v

def eraseA {α β : Type} [DecidableEq α] : List (α × β) → α → List (α × β)
  | [], _ => []
  | (k', v') :: rest, k => if k = k' then rest else (k', v') :: eraseA rest k

def insertS {α : Type} [DecidableEq α] (l : List α) (a : α) : List α :=
  if a ∈ l then l else l ++ [a]

def eraseS {α : Type} [DecidableEq α] (l : List α) (a : α) : List α :=
  l.filter (fun x => x ≠ a)

theorem lookupA_insertA_self {α β : Type} [DecidableEq α]
    (l : List (α × β)) (k : α) (v : β) : lookupA (insertA l k v) k = some v := by
  induction l with
  | nil => simp [insertA, lookupA]
  | cons p rest ih =>
    obtain ⟨k', v'⟩ := p
    by_cases h : k = k'
    · simp [insertA, lookupA, h]
    · simp [insertA, lookupA, h, ih]

theorem lookupA_insertA_ne {α β : Type} [DecidableEq α]
    (l : List (α × β)) (k k₀ : α) (v : β) (h : k₀ ≠ k) :
    lookupA (insertA l k v) k₀ = lookupA l k₀ := by
  induction l with
  | nil => simp [insertA, lookupA, h]
  | cons p rest ih =>
    obtain ⟨k', v'⟩ := p
    by_cases hk : k = k'
    · subst hk; simp [insertA, lookupA, h]
    · by_cases hk0 : k₀ = k'
      · simp [insertA, lookupA, hk, hk0]
      · simp [insertA, lookupA, hk, hk0, ih]

theorem lookupA_eq_none {α β : Type} [DecidableEq α]
    (l : List (α × β)) (k : α) (h : k ∉ l.map Prod.fst) : lookupA l k = none := by
  induction l with
  | nil => rfl
  | cons p rest ih =>
    obtain ⟨k', v'⟩ := p
    simp only [List.map_cons, List.mem_cons] at h
    push_neg at h
    simp [lookupA, h.1, ih h.2]

theorem lookupA_eraseA_self {α β : Type} [DecidableEq α]
    (l : List (α × β)) (k : α) (hnd : (l.map Prod.fst).Nodup) :
    lookupA (eraseA l k) k = none := by
  induction l with
  | nil => simp [eraseA, lookupA]
  | cons p rest ih =>
    obtain ⟨k', v'⟩ := p
    simp only [List.map_cons, List.nodup_cons] at hnd
    by_cases h : k = k'
    · subst h
      simp only [eraseA, if_pos rfl]
      exact lookupA_eq_none rest k hnd.1
    · simp only [eraseA, if_neg h, lookupA, if_neg h]
      exact ih hnd.2

theorem lookupA_eraseA_ne {α β : Type} [DecidableEq α]
    (l : List (α × β)) (k k₀ : α) (h : k₀ ≠ k) :
    lookupA (eraseA l k) k₀ = lookupA l k₀ := by
  induction l with
  | nil => simp [eraseA, lookupA]
  | cons p rest ih =>
    obtain ⟨k', v'⟩ := p
    by_cases hk : k = k'
    · subst hk; simp [eraseA, lookupA, if_neg h]
    · by_cases hk0 : k₀ = k'
      · simp [eraseA, lookupA, hk, hk0]
      · simp [eraseA, lookupA, hk, hk0, ih]

theorem mem_insertS {α : Type} [DecidableEq α] (l : List α) (a b : α) :
    b ∈ insertS l a ↔ b ∈ l ∨ b = a := by
  unfold insertS
  by_cases h : a ∈ l
  · simp only [if_pos h]
    constructor
    · exact Or.inl
    · rintro (hb | rfl)
      · exact hb
      · exact h
  · simp [if_neg h]

theorem not_mem_eraseS {α : Type} [DecidableEq α] (l : List α) (a : α) :
    a ∉ eraseS l a := by
  unfold eraseS
  intro h
  have := List.of_mem_filter h
  simp at this

theorem mem_eraseS_of_ne {α : Type} [DecidableEq α] (l : List α) (a b : α)
    (h : b ≠ a) : b ∈ eraseS l a ↔ b ∈ l := by
  unfold eraseS
  constructor
  · exact fun hm => List.mem_of_mem_filter hm
  · intro hm
    exact List.mem_filter.mpr ⟨hm, by simp [h]⟩

/-! ### Injectivity of decimal numerals (`Nat.repr`)

Needed for the username suffix search (`generateUniqueUsername`): the
candidate names `base ++ "1"`, `base ++ "2"`, … are pairwise distinct, so
the search over a finite claimed set terminates on a free name. -/

theorem toDigitsCore_append (fuel : Nat) : ∀ (n : Nat) (ds : List Char),
    Nat.toDigitsCore 10 fuel n ds = Nat.toDigitsCore 10 fuel n [] ++ ds := by
  induction fuel with
  | zero => intro n ds; rfl
  | succ f ih =>
    intro n ds
    simp only [Nat.toDigitsCore]
    by_cases h : n / 10 = 0
    · simp [h]
    · simp only [h, if_false]
      rw [ih (n / 10) (Nat.digitChar (n % 10) :: ds),
        ih (n / 10) [Nat.digitChar (n % 10)]]
      simp

theorem toDigitsCore_fuel (n : Nat) : ∀ f g : Nat, n < f → n < g →
    Nat.toDigitsCore 10 f n [] = Nat.toDigitsCore 10 g n [] := by
  induction n using Nat.strong_induction_on with
  | _ n ih =>
    intro f g hf hg
    match f, g with
    | f + 1, g + 1 =>
      simp only [Nat.toDigitsCore]
      by_cases h : n / 10 = 0
      · simp [h]
      · simp only [h, if_false]
        rw [toDigitsCore_append f, toDigitsCore_append g]
        have hpos : 0 < n := by
          rcases Nat.eq_zero_or_pos n with h0 | h0
          · exact absurd (by simp [h0]) h
          · exact h0
        have hn10 : n / 10 < n := Nat.div_lt_self hpos (by norm_num)
        rw [ih (n / 10) hn10 f g (by omega) (by omega)]

def digs (n : Nat) : List Char := Nat.toDigits 10 n

theorem digs_lt (n : Nat) (h : n < 10) : digs n = [Nat.digitChar n] := by
  unfold digs Nat.toDigits
  simp only [Nat.toDigitsCore]
  rw [Nat.div_eq_of_lt h, Nat.mod_eq_of_lt h]
  simp

theorem digs_ge (n : Nat) (h : 10 ≤ n) :
    digs n = digs (n / 10) ++ [Nat.digitChar (n % 10)] := by
  unfold digs Nat.toDigits
  have h10 : n / 10 ≠ 0 := by
    intro h0
    have := (Nat.div_eq_zero_iff (by norm_num : (0:Nat) < 10)).mp h0
    omega
  have hunf : Nat.toDigitsCore 10 (n + 1) n [] =
      Nat.toDigitsCore 10 n (n / 10) [Nat.digitChar (n % 10)] := by
    simp only [Nat.toDigitsCore]
    simp [h10]
  rw [hunf, toDigitsCore_append]
  have hn10 : n / 10 < n := Nat.div_lt_self (by omega) (by norm_num)
  rw [toDigitsCore_fuel (n / 10) n (n / 10 + 1) hn10 (Nat.lt_succ_self _)]

theorem digs_ne_nil (n : Nat) : digs n ≠ [] := by
  by_cases h : n < 10
  · rw [digs_lt n h]; simp
  · rw [digs_ge n (by omega)]; simp

theorem digitChar_inj (a b : Nat) (ha : a < 10) (hb : b < 10)
    (h : Nat.digitChar a = Nat.digitChar b) : a = b := by
  have key : ∀ x : Fin 10, ∀ y : Fin 10,
      Nat.digitChar x.val = Nat.digitChar y.val → x = y := by decide
  have := key ⟨a, ha⟩ ⟨b, hb⟩ h
  exact congrArg Fin.val this

theorem digs_inj : ∀ m n : Nat, digs m = digs n → m = n := by
  intro m
  induction m using Nat.strong_induction_on with
  | _ m ih =>
    intro n h
    by_cases hm : m < 10
    · by_cases hn : n < 10
      · rw [digs_lt m hm, digs_lt n hn] at h
        exact digitChar_inj m n hm hn (List.singleton_injective h)
      · exfalso
        rw [digs_lt m hm, digs_ge n (by omega)] at h
        have hlen := congrArg List.length h
        simp only [List.length_singleton, List.length_append] at hlen
        have := List.length_pos.mpr (digs_ne_nil (n / 10))
        omega
    · by_cases hn : n < 10
      · exfalso
        rw [digs_ge m (by omega), digs_lt n hn] at h
        have hlen := congrArg List.length h
        simp only [List.length_singleton, List.length_append] at hlen
        have := List.length_pos.mpr (digs_ne_nil (m / 10))
        omega
      · rw [digs_ge m (by omega), digs_ge n (by omega)] at h
        have hpair := List.append_inj' h (by simp)
        have hdiv : m / 10 = n / 10 :=
          ih (m / 10) (Nat.div_lt_self (by omega) (by norm_num)) (n / 10) hpair.1
        have hmod : m % 10 = n % 10 := by
          have := List.singleton_injective hpair.2
          exact digitChar_inj _ _ (Nat.mod_lt _ (by norm_num))
            (Nat.mod_lt _ (by norm_num)) this
        omega

theorem natRepr_inj : Function.Injective Nat.repr := by
  intro m n h
  apply digs_inj
  have : (digs m).asString.data = (digs n).asString.data := congrArg String.data h
  simpa using this

/-! ### The suffix search of `generateUniqueUsername` -/

def candidate (base : String) (k : Nat) : String := base ++ Nat.repr k

theorem string_data_append (s t : String) : (s ++ t).data = s.data ++ t.data := by
  cases s; cases t; rfl

theorem string_data_ext (s t : String) (h : s.data = t.data) : s = t := by
  cases s; cases t; exact congrArg String.mk h

theorem candidate_inj (base : String) : Function.Injective (candidate base) := by
  intro i j h
  apply natRepr_inj
  apply string_data_ext
  have hd := congrArg String.data h
  unfold candidate at hd
  rw [string_data_append, string_data_append] at hd
  exact List.append_cancel_left hd

theorem exists_free_candidate (active : List String) (base : String) :
    ∃ k, 1 ≤ k ∧ k ≤ active.length + 1 ∧ candidate base k ∉ active := by
  by_contra hcon
  push_neg at hcon
  set cands := (List.range (active.length + 1)).map (fun i => candidate base (i + 1)) with hc
  have hsub : cands ⊆ active := by
    intro s hs
    rw [hc] at hs
    simp only [List.mem_map, List.mem_range] at hs
    obtain ⟨i, hi, rfl⟩ := hs
    exact hcon (i + 1) (by omega) (by omega)
  have hnd : cands.Nodup := by
    rw [hc]
    refine List.Nodup.map ?_ (List.nodup_range _)
    intro i j hij
    have := candidate_inj base hij
    omega
  have hle := (hnd.subperm hsub).length_le
  rw [hc] at hle
  simp at hle

def suffixLoop (active : List String) (base : String) : Nat → Nat → String
  | 0, counter => candidate base counter
  | fuel + 1, counter =>
      if candidate base counter ∈ active then suffixLoop active base fuel (counter + 1)
      else candidate base counter

theorem suffixLoop_least (active : List String) (base : String) :
    ∀ fuel counter,
      (∃ k, counter ≤ k ∧ k < counter + fuel ∧ candidate base k ∉ active) →
      ∃ k₀, suffixLoop active base fuel counter = candidate base k₀ ∧
        counter ≤ k₀ ∧ candidate base k₀ ∉ active ∧
        ∀ j, counter ≤ j → j < k₀ → candidate base j ∈ active := by
  intro fuel
  induction fuel with
  | zero =>
    intro counter ⟨k, hk1, hk2, _⟩
    omega
  | succ f ih =>
    intro counter ⟨k, hk1, hk2, hkfree⟩
    by_cases hc : candidate base counter ∈ active
    · have hkc : k ≠ counter := fun he => hkfree (he ▸ hc)
      obtain ⟨k₀, hres, hge, hfree, hmin⟩ :=
        ih (counter + 1) ⟨k, by omega, by omega, hkfree⟩
      refine ⟨k₀, ?_, by omega, hfree, ?_⟩
      · simpa [suffixLoop, hc] using hres
      · intro j hj1 hj2
        rcases Nat.eq_or_lt_of_le hj1 with he | hlt
        · exact he ▸ hc
        · exact hmin j hlt hj2
    · exact ⟨counter, by simp [suffixLoop, hc], Nat.le_refl _, hc, fun j h1 h2 => by omega⟩

/-! ## The grace-period server revision (`test/server-logout.test.js`) -/

namespace Chat

def MAX_HISTORY : Nat := 100
def MAX_USERNAME_LENGTH : Nat := 20
def RECONNECT_GRACE_PERIOD : Nat := 10 * 1000
def MAX_MESSAGES : Nat := 15
def TIME_WINDOW : Nat := 10000
def MUTE_DURATION : Nat := 5000

def reservedUsernames : List String :=
  ["admin", "manager", "administrator", "mod", "moderator", "root", "system", "owner"]

/-- ASCII lower-casing, the effect of JavaScript `toLowerCase()` on the
alphanumeric/underscore strings produced by the sanitizer. -/
def jsLowerChar (c : Char) : Char :=
  if 'A' ≤ c ∧ c ≤ 'Z' then Char.ofNat (c.toNat + 32) else c

def jsToLower (s : String) : String := String.mk (s.data.map jsLowerChar)

/-- `sanitizeUsername`: strip to `[a-zA-Z0-9_]`, reject reserved names,
default to `"anon"` when empty, clamp to `MAX_USERNAME_LENGTH`. -/
def sanitizeUsername (username : String) : String :=
  let sanitized := String.mk (username.data.filter (fun c => c.isAlphanum || c = '_'))
  if jsToLower sanitized ∈ reservedUsernames then "anon"
  else if sanitized.data.length = 0 then "anon"
  else if sanitized.data.length > MAX_USERNAME_LENGTH then
    String.mk (sanitized.data.take MAX_USERNAME_LENGTH)
  else sanitized

/-- `isUsernameAvailable`: not in the `activeUsernames` set. -/
def isUsernameAvailable (active : List String) (username : String) : Bool :=
  !(decide (username ∈ active))

/-- `generateUniqueUsername`: the sanitized base name when free, otherwise
the base with the first free positive integer suffix appended.  The
source's `while` loop is `suffixLoop`; fuel `active.length + 1` is enough
by `exists_free_candidate`. -/
def generateUniqueUsername (active : List String) (requestedName : String) : String :=
  let baseName := sanitizeUsername (if requestedName.isEmpty then "anon" else requestedName)
  if isUsernameAvailable active baseName then baseName
  else suffixLoop active baseName (active.length + 1) 1

structure RateState where
  count : Nat
  lastReset : Nat
  mutedUntil : Nat
deriving DecidableEq

/-- One `isSpamming` call for one identity; `none` is the lazily created
state of an identity's first message. -/
def isSpammingStep (st : Option RateState) (now : Nat) : Bool × RateState :=
  match st with
  | none => (false, ⟨1, now, 0⟩)
  | some u =>
    if now < u.mutedUntil then (true, u)
    else if now - u.lastReset > TIME_WINDOW then (false, ⟨1, now, 0⟩)
    else
      let c := u.count + 1
      if c > MAX_MESSAGES then (true, ⟨c, u.lastReset, now + MUTE_DURATION⟩)
      else (false, ⟨c, u.lastReset, u.mutedUntil⟩)

/-- `isSpamming` over the whole `rateLimits` map. -/
def isSpamming (rl : List (String × RateState)) (username : String) (now : Nat) :
    Bool × List (String × RateState) :=
  let (b, st) := isSpammingStep (lookupA rl username) now
  (b, insertA rl username st)

structure BanInfo where
  expiresAt : Nat
  username : String
deriving DecidableEq

/-- `cleanExpiredBans`: delete every entry with `now >= expiresAt`. -/
def cleanExpiredBans (banned : List (String × BanInfo)) (now : Nat) :
    List (String × BanInfo) :=
  banned.filter (fun p => decide (now < p.2.expiresAt))

inductive BanStatus where
  | notBanned
  | isBanned (remainingTime : Nat) (username : String)
deriving DecidableEq

/-- `Math.ceil(x / 1000)` on a non-negative integer. -/
def ceilDiv1000 (x : Nat) : Nat := (x + 999) / 1000

/-- `isDeviceBanned`: lazily evict expired bans, then look the device up. -/
def isDeviceBanned (banned : List (String × BanInfo)) (deviceId : Option String)
    (now : Nat) : BanStatus × List (String × BanInfo) :=
  match deviceId with
  | none => (.notBanned, banned)
  | some d =>
    if d.isEmpty then (.notBanned, banned)
    else
      let cleaned := cleanExpiredBans banned now
      match lookupA cleaned d with
      | some info => (.isBanned (ceilDiv1000 (info.expiresAt - now)) info.username, cleaned)
      | none => (.notBanned, cleaned)

/-- `banDevice`: expiry `now + durationSeconds * 1000`, overwriting. -/
def banDevice (banned : List (String × BanInfo)) (deviceId username : String)
    (durationSeconds now : Nat) : List (String × BanInfo) :=
  insertA banned deviceId ⟨now + durationSeconds * 1000, username⟩

structure Session where
  username : Option String
  deviceId : Option String
  authenticated : Bool
  terminalMode : Option Bool
deriving DecidableEq

structure TimeoutInfo where
  username : String
  timestamp : Nat
deriving DecidableEq

structure ServerState where
  clients : List (Nat × Session)
  deviceToUsername : List (String × String)
  activeUsernames : List String
  disconnectionTimeouts : List (String × TimeoutInfo)
  messageHistory : List (String × Nat)
  rateLimits : List (String × RateState)
  bannedDevices : List (String × BanInfo)
  openSockets : List Nat
  broadcasts : List String
  deliveries : List (Nat × String)
deriving DecidableEq

def initState : ServerState := ⟨[], [], [], [], [], [], [], [], [], []⟩

def departureMsg (u : String) : String := "[" ++ u ++ "] ha salido del chat."

def joinMsg (u : String) : String := "[" ++ u ++ "] se ha unido al chat."

/-- Recipients of a broadcast: authenticated sessions whose socket is open. -/
def recipients (st : ServerState) : List Nat :=
  (st.clients.filter (fun p => p.2.authenticated && decide (p.1 ∈ st.openSockets))).map
    Prod.fst

def pushHistory (hist : List (String × Nat)) (msg : String) (now : Nat) :
    List (String × Nat) :=
  let h := hist ++ [(msg, now)]
  if h.length > MAX_HISTORY then h.tail else h

/-- `broadcast(msg)`: push to the bounded history, then fan out to every
authenticated open session (the two ghost traces record the call and the
deliveries). -/
def broadcast (st : ServerState) (msg : String) (now : Nat) : ServerState :=
  { st with
    messageHistory := pushHistory st.messageHistory msg now,
    broadcasts := st.broadcasts ++ [msg],
    deliveries := st.deliveries ++ (recipients st).map (fun w => (w, msg)) }

/-- `ws.close()`. -/
def closeSocket (st : ServerState) (ws : Nat) : ServerState :=
  { st with openSockets := eraseS st.openSockets ws }

/-- `scheduleCleanup`: drop the session from `clients` at once; with a
device and a username, (re)schedule the grace timer for the device. -/
def scheduleCleanup (st : ServerState) (ws : Nat) (now : Nat) : ServerState :=
  match lookupA st.clients ws with
  | none => st
  | some cd =>
    let st1 := { st with clients := eraseA st.clients ws }
    match cd.deviceId, cd.username with
    | some d, some u =>
      if d.isEmpty || u.isEmpty then st1
      else { st1 with disconnectionTimeouts := insertA st1.disconnectionTimeouts d ⟨u, now⟩ }
    | _, _ => st1

/-- The grace timer's callback for a device: enabled while the entry is
pending; releases the name, the device binding and the rate state, then
broadcasts the departure. -/
def graceExpire (st : ServerState) (deviceId : String) (now : Nat) : ServerState :=
  match lookupA st.disconnectionTimeouts deviceId with
  | none => st
  | some info =>
    let st1 := { st with
      activeUsernames := eraseS st.activeUsernames info.username,
      deviceToUsername := eraseA st.deviceToUsername deviceId,
      rateLimits := eraseA st.rateLimits info.username,
      disconnectionTimeouts := eraseA st.disconnectionTimeouts deviceId }
    broadcast st1 (departureMsg info.username) now

/-- `cancelScheduledCleanup`: cancel the pending timer, reporting whether
one existed (a quick reconnect). -/
def cancelScheduledCleanup (st : ServerState) (deviceId : String) :
    Bool × ServerState :=
  match lookupA st.disconnectionTimeouts deviceId with
  | some _ =>
      (true, { st with disconnectionTimeouts := eraseA st.disconnectionTimeouts deviceId })
  | none => (false, st)

/-- `immediateCleanup`: drop the session, cancel any grace timer, unbind
the device, release the name and the rate state — all in one step. -/
def immediateCleanup (st : ServerState) (ws : Nat) :
    Option (Option String × Option String) × ServerState :=
  match lookupA st.clients ws with
  | none => (none, st)
  | some cd =>
    let st1 := { st with clients := eraseA st.clients ws }
    let st2 :=
      match cd.deviceId with
      | some d =>
        if d.isEmpty then st1
        else
          { st1 with
            disconnectionTimeouts := eraseA st1.disconnectionTimeouts d,
            deviceToUsername := eraseA st1.deviceToUsername d }
      | none => st1
    let st3 :=
      match cd.username with
      | some u =>
        if u.isEmpty then st2
        else
          { st2 with
            activeUsernames := eraseS st2.activeUsernames u,
            rateLimits := eraseA st2.rateLimits u }
      | none => st2
    (some (cd.username, cd.deviceId), st3)

inductive AuthOutcome where
  | noSession
  | errNoDevice
  | errBanned (remainingTime : Nat)
  | ok (finalUsername : String) (announceJoin : Bool) (isQuickReconnect : Bool)
deriving DecidableEq

/-- Registration tail of the `auth` handler: record the name, bind the
device, mark the session authenticated, broadcast the join if announced. -/
def finishAuth (st : ServerState) (ws : Nat) (cd : Session) (d : String)
    (finalUsername : String) (announceJoin : Bool) (quick : Bool) (now : Nat) :
    ServerState × AuthOutcome :=
  let st := { st with
    activeUsernames := insertS st.activeUsernames finalUsername,
    deviceToUsername := insertA st.deviceToUsername d finalUsername,
    clients := insertA st.clients ws
      { cd with username := some finalUsername, deviceId := some d, authenticated := true } }
  let st := if announceJoin then broadcast st (joinMsg finalUsername) now else st
  (st, .ok finalUsername announceJoin quick)

/-- The `auth` message handler: ban check, quick-reconnect check (CHECK 1),
stale-reconnect check (CHECK 2), fresh allocation (CHECK 3), then
registration.  An empty previous username is JavaScript-falsy, hence the
`isEmpty` guards. -/
def authStep (st : ServerState) (ws : Nat) (requestedName : String)
    (deviceId : Option String) (isReconnect : Bool) (now : Nat) :
    ServerState × AuthOutcome :=
  match lookupA st.clients ws with
  | none => (closeSocket st ws, .noSession)
  | some cd0 =>
    let cd := { cd0 with terminalMode := some false }
    let st := { st with clients := insertA st.clients ws cd }
    match deviceId with
    | none => (closeSocket st ws, .errNoDevice)
    | some d =>
      if d.isEmpty then (closeSocket st ws, .errNoDevice)
      else
        match isDeviceBanned st.bannedDevices (some d) now with
        | (.isBanned remaining _, cleaned) =>
            (closeSocket { st with bannedDevices := cleaned } ws, .errBanned remaining)
        | (.notBanned, cleaned) =>
          let st := { st with bannedDevices := cleaned }
          let (cancelled, st) := cancelScheduledCleanup st d
          let check1 : Option String :=
            if cancelled then
              match lookupA st.deviceToUsername d with
              | some prev =>
                  if !prev.isEmpty && decide (prev ∈ st.activeUsernames) then some prev
                  else none
              | none => none
            else none
          match check1 with
          | some f => finishAuth st ws cd d f false true now
          | none =>
            let check2 : Option String :=
              if isReconnect then
                match lookupA st.deviceToUsername d with
                | some prev =>
                    if isUsernameAvailable st.activeUsernames prev && !prev.isEmpty then
                      some prev
                    else none
                | none => none
              else none
            match check2 with
            | some f => finishAuth st ws cd d f true false now
            | none =>
                finishAuth st ws cd d
                  (generateUniqueUsername st.activeUsernames requestedName) true false now

inductive LogoutOutcome where
  | notAuth
  | loggedOut
deriving DecidableEq

/-- The `logout` message handler: immediate cleanup (no grace period),
departure broadcast, close. -/
def logoutStep (st : ServerState) (ws : Nat) (now : Nat) :
    ServerState × LogoutOutcome :=
  match lookupA st.clients ws with
  | none => (closeSocket st ws, .notAuth)
  | some cd =>
    if !cd.authenticated then (st, .notAuth)
    else
      let (info, st1) := immediateCleanup st ws
      let st2 :=
        match info with
        | some (some u, _) => if u.isEmpty then st1 else broadcast st1 (departureMsg u) now
        | _ => st1
      (closeSocket st2 ws, .loggedOut)

/-- First authenticated session bound to the target name, in map order. -/
def findTarget : List (Nat × Session) → String → Option (Nat × Session)
  | [], _ => none
  | (w, s) :: rest, target =>
      if s.username = some target ∧ s.authenticated then some (w, s)
      else findTarget rest target

def kickMsgBan (target actor : String) (seconds : Nat) : String :=
  "[" ++ target ++ "] ha sido expulsado por [" ++ actor ++ "] durante "
    ++ Nat.repr seconds ++ " segundos."

def kickMsgPlain (target actor : String) : String :=
  "[" ++ target ++ "] ha sido expulsado por [" ++ actor ++ "]."

inductive KickOutcome where
  | kicked
  | notFound
deriving DecidableEq

/-- Core of the `/kick` handler (after password and seconds validation):
immediate cleanup and close of the first matching session, then a ban only
when `seconds > 0`, then the kick broadcast. -/
def kickStep (st : ServerState) (targetUser actor : String) (seconds : Nat)
    (now : Nat) : ServerState × KickOutcome :=
  match findTarget st.clients targetUser with
  | none => (st, .notFound)
  | some (w, s) =>
    let (_, st1) := immediateCleanup st w
    let st2 := closeSocket st1 w
    match s.deviceId with
    | some d =>
      if !d.isEmpty && decide (seconds > 0) then
        let st3 := { st2 with bannedDevices := banDevice st2.bannedDevices d targetUser seconds now }
        (broadcast st3 (kickMsgBan targetUser actor seconds) now, .kicked)
      else (broadcast st2 (kickMsgPlain targetUser actor) now, .kicked)
    | none => (broadcast st2 (kickMsgPlain targetUser actor) now, .kicked)

/-- A new connection: fresh unauthenticated session, open socket. -/
def connectStep (st : ServerState) (ws : Nat) : ServerState :=
  { st with clients := insertA st.clients ws ⟨none, none, false, none⟩,
            openSockets := insertS st.openSockets ws }

/-- The `close` (and `error`) event: the socket is gone, then
`scheduleCleanup` runs. -/
def closeStep (st : ServerState) (ws : Nat) (now : Nat) : ServerState :=
  scheduleCleanup (closeSocket st ws) ws now

end Chat

/-! ### Further association-list lemmas -/

theorem not_mem_keys_of_lookupA_none {α β : Type} [DecidableEq α]
    (l : List (α × β)) (k : α) (h : lookupA l k = none) : k ∉ l.map Prod.fst := by
  induction l with
  | nil => simp
  | cons p rest ih =>
    obtain ⟨k', v'⟩ := p
    by_cases hk : k = k'
    · subst hk; simp [lookupA] at h
    · simp only [lookupA, if_neg hk] at h
      simp only [List.map_cons, List.mem_cons]
      push_neg
      exact ⟨hk, ih h⟩

theorem lookupA_isSome_of_mem_keys {α β : Type} [DecidableEq α]
    (l : List (α × β)) (k : α) (h : k ∈ l.map Prod.fst) :
    ∃ v, lookupA l k = some v := by
  induction l with
  | nil => simp at h
  | cons p rest ih =>
    obtain ⟨k', v'⟩ := p
    by_cases hk : k = k'
    · exact ⟨v', by simp [lookupA, hk]⟩
    · simp only [List.map_cons, List.mem_cons] at h
      rcases h with h | h
      · exact absurd h hk
      · simpa [lookupA, hk] using ih h

theorem lookupA_filter_none {α β : Type} [DecidableEq α]
    (p : α × β → Bool) (l : List (α × β)) (k : α) (h : lookupA l k = none) :
    lookupA (l.filter p) k = none := by
  apply lookupA_eq_none
  intro hm
  apply not_mem_keys_of_lookupA_none l k h
  simp only [List.mem_map] at hm ⊢
  obtain ⟨q, hq, rfl⟩ := hm
  exact ⟨q, List.mem_of_mem_filter hq, rfl⟩

theorem lookupA_filter {α β : Type} [DecidableEq α]
    (p : α × β → Bool) (l : List (α × β)) (k : α) (v : β)
    (hnd : (l.map Prod.fst).Nodup) (h : lookupA l k = some v) :
    lookupA (l.filter p) k = if p (k, v) then some v else none := by
  induction l with
  | nil => simp [lookupA] at h
  | cons q rest ih =>
    obtain ⟨k', v'⟩ := q
    simp only [List.map_cons, List.nodup_cons] at hnd
    by_cases hk : k = k'
    · subst hk
      have h2 : v' = v := by simpa [lookupA] using h
      subst h2
      by_cases hp : p (k, v')
      · simp [List.filter_cons, hp, lookupA]
      · simp only [List.filter_cons, hp, Bool.false_eq_true, if_false, if_neg hp]
        exact lookupA_filter_none p rest k (lookupA_eq_none rest k hnd.1)
    · simp only [lookupA, if_neg hk] at h
      by_cases hp : p (k', v')
      · simp only [List.filter_cons, hp, if_true, lookupA, if_neg hk]
        exact ih hnd.2 h
      · simp only [List.filter_cons, hp, Bool.false_eq_true, if_false]
        exact ih hnd.2 h

theorem lookupA_of_mem_nodup {α β : Type} [DecidableEq α]
    (l : List (α × β)) (k : α) (v : β)
    (hnd : (l.map Prod.fst).Nodup) (h : (k, v) ∈ l) : lookupA l k = some v := by
  induction l with
  | nil => simp at h
  | cons q rest ih =>
    obtain ⟨k', v'⟩ := q
    simp only [List.map_cons, List.nodup_cons] at hnd
    rcases List.mem_cons.mp h with heq | hmem
    · cases heq
      simp [lookupA]
    · have hk : k ≠ k' := by
        intro he
        subst he
        exact hnd.1 (List.mem_map.mpr ⟨(k, v), hmem, rfl⟩)
      simp only [lookupA, if_neg hk]
      exact ih hnd.2 hmem

theorem eraseA_insertA {α β : Type} [DecidableEq α]
    (l : List (α × β)) (k : α) (v : β) :
    eraseA (insertA l k v) k = eraseA l k := by
  induction l with
  | nil => simp [insertA, eraseA]
  | cons p rest ih =>
    obtain ⟨k', v'⟩ := p
    by_cases hk : k = k'
    · subst hk; simp [insertA, eraseA]
    · simp [insertA, eraseA, hk, ih]

/-! ### Properties of `generateUniqueUsername` -/

namespace Chat

theorem isUsernameAvailable_iff (active : List String) (u : String) :
    isUsernameAvailable active u = true ↔ u ∉ active := by
  simp [isUsernameAvailable]

theorem generateUniqueUsername_base (active : List String) (requested b : String)
    (hb : sanitizeUsername (if requested.isEmpty then "anon" else requested) = b)
    (hfree : b ∉ active) : generateUniqueUsername active requested = b := by
  unfold generateUniqueUsername
  rw [hb, if_pos ((isUsernameAvailable_iff active b).mpr hfree)]

theorem generateUniqueUsername_suffix (active : List String) (requested b : String)
    (hb : sanitizeUsername (if requested.isEmpty then "anon" else requested) = b)
    (htaken : b ∈ active) :
    ∃ k₀, generateUniqueUsername active requested = candidate b k₀ ∧
      1 ≤ k₀ ∧ candidate b k₀ ∉ active ∧
      ∀ j, 1 ≤ j → j < k₀ → candidate b j ∈ active := by
  unfold generateUniqueUsername
  rw [hb]
  have hna : ¬ isUsernameAvailable active b = true := by
    rw [isUsernameAvailable_iff]
    exact fun hn => hn htaken
  rw [if_neg hna]
  obtain ⟨k, hk1, hk2, hkfree⟩ := exists_free_candidate active b
  obtain ⟨k₀, hres, hge, hfree, hmin⟩ :=
    suffixLoop_least active b (active.length + 1) 1 ⟨k, hk1, by omega, hkfree⟩
  exact ⟨k₀, hres, hge, hfree, fun j h1 h2 => hmin j h1 h2⟩

theorem generateUniqueUsername_not_mem (active : List String) (requested : String) :
    generateUniqueUsername active requested ∉ active := by
  by_cases h : sanitizeUsername (if requested.isEmpty then "anon" else requested) ∈ active
  · obtain ⟨k₀, hres, _, hfree, _⟩ :=
      generateUniqueUsername_suffix active requested _ rfl h
    rw [hres]; exact hfree
  · rw [generateUniqueUsername_base active requested _ rfl h]; exact h

end Chat

/-- C9: name allocation is deterministic with integer suffixes.  Claiming
"alice" when it is unclaimed returns "alice"; a second claim (no
device-based resolution) returns "alice1", the smallest free positive
integer suffix; a third claim returns "alice2" only if "alice1" is still
taken; and for every finite claimed set the suffix search returns a name
outside that set (it terminates with a free name). -/
theorem suffix_determinism (active : List String) :
    ("alice" ∉ active → Chat.generateUniqueUsername active "alice" = "alice") ∧
    ("alice" ∈ active → "alice1" ∉ active →
      Chat.generateUniqueUsername active "alice" = "alice1") ∧
    ("alice" ∈ active → "alice1" ∈ active → "alice2" ∉ active →
      Chat.generateUniqueUsername active "alice" = "alice2") ∧
    ("alice" ∈ active → "alice1" ∉ active →
      Chat.generateUniqueUsername active "alice" ≠ "alice2") ∧
    Chat.generateUniqueUsername active "alice" ∉ active := by
  have hsan : Chat.sanitizeUsername (if ("alice" : String).isEmpty then "anon" else "alice")
      = "alice" := by decide
  have hc1 : candidate "alice" 1 = "alice1" := rfl
  have hc2 : candidate "alice" 2 = "alice2" := rfl
  have second : "alice" ∈ active → "alice1" ∉ active →
      Chat.generateUniqueUsername active "alice" = "alice1" := by
    intro h1 h2
    obtain ⟨k₀, hres, hge, hfree, hmin⟩ :=
      Chat.generateUniqueUsername_suffix active "alice" "alice" hsan h1
    have hk0 : k₀ = 1 := by
      by_contra hne
      exact h2 (hc1 ▸ hmin 1 (Nat.le_refl 1) (by omega))
    rw [hres, hk0, hc1]
  refine ⟨?_, second, ?_, ?_, Chat.generateUniqueUsername_not_mem active "alice"⟩
  · intro h
    exact Chat.generateUniqueUsername_base active "alice" "alice" hsan h
  · intro h1 h2 h3
    obtain ⟨k₀, hres, hge, hfree, hmin⟩ :=
      Chat.generateUniqueUsername_suffix active "alice" "alice" hsan h1
    have hk1 : k₀ ≠ 1 := by
      intro he
      rw [he, hc1] at hfree
      exact hfree h2
    have hk0 : k₀ = 2 := by
      by_contra hne
      exact h3 (hc2 ▸ hmin 2 (by omega) (by omega))
    rw [hres, hk0, hc2]
  · intro h1 h2
    rw [second h1 h2]
    decide

/-- Witness for C9 at the concrete claimed set `["alice"]`. -/
theorem suffix_determinism_witness :
    Chat.generateUniqueUsername ["alice"] "alice" = "alice1" :=
  (suffix_determinism ["alice"]).2.1 (by decide) (by decide)

/-! ### Rate limiter: code vs. the specification's reference algorithm -/

namespace Chat

/-- Decision trace of repeated `isSpamming` calls for one identity
(`true` = rejected as spamming), starting from `none` (no rate state). -/
def runIsSpamming (st : Option RateState) : List Nat → List Bool
  | [] => []
  | t :: ts =>
    let p := isSpammingStep st t
    p.1 :: runIsSpamming (some p.2) ts

/-- Decisions plus final state of repeated `isSpamming` calls. -/
def runIsSpammingSt (st : Option RateState) : List Nat → List Bool × Option RateState
  | [] => ([], st)
  | t :: ts =>
    let p := isSpammingStep st t
    let q := runIsSpammingSt (some p.2) ts
    (p.1 :: q.1, q.2)

end Chat

/-- Modelled from the spec: the reference per-identity admission algorithm
of the Rate Limiter section — if `now < mutedUntil`, reject; else if
`now − windowStart > W`, reset `{count := 1, windowStart := now}` and
accept; else increment the count, and if `count > N` set
`mutedUntil := now + M` and reject, otherwise accept; state created lazily
on the first message.  (Unlike the code it does not clear `mutedUntil` on
a window reset.) -/
def specRateStep (st : Option Chat.RateState) (now : Nat) : Bool × Chat.RateState :=
  match st with
  | none => (false, ⟨1, now, 0⟩)
  | some u =>
    if now < u.mutedUntil then (true, u)
    else if now - u.lastReset > Chat.TIME_WINDOW then (false, ⟨1, now, u.mutedUntil⟩)
    else
      let c := u.count + 1
      if c > Chat.MAX_MESSAGES then (true, ⟨c, u.lastReset, now + Chat.MUTE_DURATION⟩)
      else (false, ⟨c, u.lastReset, u.mutedUntil⟩)

/-- Decision trace of the reference algorithm. -/
def runSpecRate (st : Option Chat.RateState) : List Nat → List Bool
  | [] => []
  | t :: ts =>
    let p := specRateStep st t
    p.1 :: runSpecRate (some p.2) ts

/-- Simulation relation between a code rate state and a reference rate
state at a point where the last processed timestamp was at most `t`: the
two agree except that the code may have cleared an already-expired mute. -/
def RateRel (t : Nat) : Option Chat.RateState → Option Chat.RateState → Prop
  | none, none => True
  | some a, some b =>
      a.count = b.count ∧ a.lastReset = b.lastReset ∧
        (a.mutedUntil = b.mutedUntil ∨ (a.mutedUntil = 0 ∧ b.mutedUntil ≤ t))
  | _, _ => False

theorem rateStep_equiv (t now : Nat) (a b : Option Chat.RateState)
    (hR : RateRel t a b) (hle : t ≤ now) :
    (Chat.isSpammingStep a now).1 = (specRateStep b now).1 ∧
    RateRel now (some (Chat.isSpammingStep a now).2)
      (some (specRateStep b now).2) := by
  match a, b with
  | none, none =>
    refine ⟨rfl, ?_⟩
    simp [Chat.isSpammingStep, specRateStep, RateRel]
  | none, some _ => exact absurd hR (by simp [RateRel])
  | some _, none => exact absurd hR (by simp [RateRel])
  | some ⟨ca, la, ma⟩, some ⟨cb, lb, mb⟩ =>
    obtain ⟨hc, hl, hm⟩ := hR
    simp only at hc hl hm
    subst hc; subst hl
    rcases hm with hm | ⟨hma, hmb⟩
    · subst hm
      by_cases h1 : now < ma
      · simp [Chat.isSpammingStep, specRateStep, h1, RateRel]
      · by_cases h2 : now - la > Chat.TIME_WINDOW
        · simp only [Chat.isSpammingStep, specRateStep, if_neg h1, if_pos h2]
          simp only [RateRel]
          simp only [true_and, and_true, eq_self_iff_true]
          omega
        · by_cases h3 : ca + 1 > Chat.MAX_MESSAGES
          · simp [Chat.isSpammingStep, specRateStep, h1, h2, h3, RateRel]
          · simp [Chat.isSpammingStep, specRateStep, h1, h2, h3, RateRel]
    · subst hma
      have h1a : ¬ now < 0 := by omega
      have h1b : ¬ now < mb := by omega
      by_cases h2 : now - la > Chat.TIME_WINDOW
      · simp only [Chat.isSpammingStep, specRateStep, if_neg h1a, if_neg h1b, if_pos h2]
        simp only [RateRel]
        simp only [true_and, and_true, eq_self_iff_true]
        omega
      · by_cases h3 : ca + 1 > Chat.MAX_MESSAGES
        · simp [Chat.isSpammingStep, specRateStep, h1a, h1b, h2, h3, RateRel]
        · simp only [Chat.isSpammingStep, specRateStep, if_neg h1a, if_neg h1b,
            if_neg h2, if_neg h3]
          simp only [RateRel]
          simp only [true_and, and_true, eq_self_iff_true]
          omega

theorem runRate_equiv : ∀ (ts : List Nat) (t : Nat) (a b : Option Chat.RateState),
    RateRel t a b → List.Chain (· ≤ ·) t ts →
    Chat.runIsSpamming a ts = runSpecRate b ts := by
  intro ts
  induction ts with
  | nil => intro t a b _ _; rfl
  | cons x xs ih =>
    intro t a b hR hch
    cases hch with
    | cons hle hch2 =>
      obtain ⟨hdec, hR2⟩ := rateStep_equiv t x a b hR hle
      simp only [Chat.runIsSpamming, runSpecRate]
      rw [hdec, ih x _ _ hR2 hch2]

/-- C7: on every nondecreasing timestamp trace, the per-identity message
admission decisions of the code's `isSpamming` (with `W = TIME_WINDOW`,
`N = MAX_MESSAGES`, `M = MUTE_DURATION`) equal those of the spec's
reference algorithm, state created lazily on the first message. -/
theorem rate_limiter_refines_reference (ts : List Nat)
    (hmono : List.Chain (· ≤ ·) 0 ts) :
    Chat.runIsSpamming none ts = runSpecRate none ts :=
  runRate_equiv ts 0 none none trivial hmono

/-- Witness for C7 on a concrete three-message trace. -/
theorem rate_limiter_refines_reference_witness :
    Chat.runIsSpamming none [0, 5, 20000] = runSpecRate none [0, 5, 20000] :=
  rate_limiter_refines_reference [0, 5, 20000]
    (List.Chain.cons (by omega)
      (List.Chain.cons (by omega) (List.Chain.cons (by omega) List.Chain.nil)))

/-! ### Rate limiting traces (C8) -/

theorem isSpammingStep_some (c l m now : Nat) :
    Chat.isSpammingStep (some ⟨c, l, m⟩) now =
      if now < m then (true, ⟨c, l, m⟩)
      else if now - l > Chat.TIME_WINDOW then (false, ⟨1, now, 0⟩)
      else if c + 1 > Chat.MAX_MESSAGES then (true, ⟨c + 1, l, now + Chat.MUTE_DURATION⟩)
      else (false, ⟨c + 1, l, m⟩) := rfl

theorem inWindow_run (t1 : Nat) : ∀ (ts : List Nat) (c : Nat),
    1 ≤ c → c + ts.length ≤ Chat.MAX_MESSAGES →
    (∀ x ∈ ts, x - t1 ≤ Chat.TIME_WINDOW) →
    Chat.runIsSpammingSt (some ⟨c, t1, 0⟩) ts =
      (List.replicate ts.length false, some ⟨c + ts.length, t1, 0⟩) := by
  intro ts
  induction ts with
  | nil => intro c _ _ _; rfl
  | cons x xs ih =>
    intro c hc hlen hwin
    simp only [List.length_cons] at hlen
    have hx : x - t1 ≤ Chat.TIME_WINDOW := hwin x (List.mem_cons_self x xs)
    have hstep : Chat.isSpammingStep (some ⟨c, t1, 0⟩) x = (false, ⟨c + 1, t1, 0⟩) := by
      rw [isSpammingStep_some, if_neg (by omega), if_neg (by omega), if_neg (by omega)]
    simp only [Chat.runIsSpammingSt, hstep, List.length_cons]
    rw [ih (c + 1) (by omega) (by omega)
      (fun y hy => hwin y (List.mem_cons_of_mem x hy))]
    simp only [Prod.mk.injEq]
    refine ⟨by simp [List.replicate_succ], ?_⟩
    have harith : c + 1 + xs.length = c + (xs.length + 1) := by omega
    rw [harith]

theorem runIsSpammingSt_append (l1 : List Nat) :
    ∀ (a : Option Chat.RateState) (l2 : List Nat),
    Chat.runIsSpammingSt a (l1 ++ l2) =
      ((Chat.runIsSpammingSt a l1).1 ++
          (Chat.runIsSpammingSt (Chat.runIsSpammingSt a l1).2 l2).1,
        (Chat.runIsSpammingSt (Chat.runIsSpammingSt a l1).2 l2).2) := by
  induction l1 with
  | nil => intro a l2; rfl
  | cons y ys ihy =>
    intro a l2
    simp only [List.cons_append, Chat.runIsSpammingSt]
    rw [show (ys.append l2 : List Nat) = ys ++ l2 from rfl, ihy]

/-- C8 corrected (counterexample): with the code's constants
(`N = 15`, `W = 10000 ms`, `M = 5000 ms`), after sixteen messages at time
0 the sender is muted until 5000; the message at time 5001 — sent after
the mute has expired — is nevertheless rejected (and re-muted), because it
still falls inside the 10000 ms window.  This falsifies "every message
sent after mute expiry is accepted and resets the window". -/
theorem rate_limit_post_mute_counterexample :
    (Chat.runIsSpammingSt none (List.replicate 16 0)).2 =
        some ⟨16, 0, 5000⟩ ∧
    (5000 : Nat) ≤ 5001 ∧
    Chat.isSpammingStep (some ⟨16, 0, 5000⟩) 5001 = (true, ⟨17, 0, 10001⟩) := by
  refine ⟨by decide, by decide, by decide⟩

/-- C8 amended: N+1 messages of one identity inside a single window — the
first N are accepted, the (N+1)th is rejected and sets
`mutedUntil = t_last + M`; a later message `u` with the mute expired
(`mutedUntil ≤ u`) is accepted and resets the window provided it also
falls outside the window (`u − windowStart > W`); with the mute expired
but `u` still inside the window it is rejected and re-muted. -/
theorem rate_limit_window (t1 : Nat) (ts : List Nat) (tlast : Nat)
    (hlen : ts.length = Chat.MAX_MESSAGES - 1)
    (hwin : ∀ x ∈ ts, x - t1 ≤ Chat.TIME_WINDOW)
    (hlastwin : tlast - t1 ≤ Chat.TIME_WINDOW) :
    Chat.runIsSpammingSt none (t1 :: ts ++ [tlast]) =
      (List.replicate Chat.MAX_MESSAGES false ++ [true],
        some ⟨Chat.MAX_MESSAGES + 1, t1, tlast + Chat.MUTE_DURATION⟩) ∧
    (∀ u, tlast + Chat.MUTE_DURATION ≤ u → u - t1 > Chat.TIME_WINDOW →
      Chat.isSpammingStep (some ⟨Chat.MAX_MESSAGES + 1, t1, tlast + Chat.MUTE_DURATION⟩) u
        = (false, ⟨1, u, 0⟩)) ∧
    (∀ u, tlast + Chat.MUTE_DURATION ≤ u → u - t1 ≤ Chat.TIME_WINDOW →
      Chat.isSpammingStep (some ⟨Chat.MAX_MESSAGES + 1, t1, tlast + Chat.MUTE_DURATION⟩) u
        = (true, ⟨Chat.MAX_MESSAGES + 2, t1, u + Chat.MUTE_DURATION⟩)) := by
  refine ⟨?_, ?_, ?_⟩
  · have hfirst : Chat.isSpammingStep none t1 = (false, ⟨1, t1, 0⟩) := rfl
    have hmid := inWindow_run t1 ts 1 (Nat.le_refl 1) (by rw [hlen]; decide) hwin
    have hlast : Chat.isSpammingStep (some ⟨1 + ts.length, t1, 0⟩) tlast =
        (true, ⟨1 + ts.length + 1, t1, tlast + Chat.MUTE_DURATION⟩) := by
      rw [isSpammingStep_some]
      rw [if_neg (show ¬ tlast < 0 by omega)]
      rw [if_neg (show ¬ tlast - t1 > Chat.TIME_WINDOW by omega)]
      rw [if_pos (show 1 + ts.length + 1 > Chat.MAX_MESSAGES by rw [hlen]; decide)]
    have hrun1 : Chat.runIsSpammingSt none (t1 :: ts) =
        (false :: List.replicate ts.length false, some ⟨1 + ts.length, t1, 0⟩) := by
      simp only [Chat.runIsSpammingSt, hfirst, hmid]
    have hs := runIsSpammingSt_append (t1 :: ts) none [tlast]
    rw [show (t1 :: ts) ++ [tlast] = t1 :: ts ++ [tlast] from rfl] at hs
    rw [hs, hrun1]
    simp only [Chat.runIsSpammingSt, hlast]
    simp only [Prod.mk.injEq]
    constructor
    · rw [hlen]; decide
    · rw [hlen]
      have harith : 1 + (Chat.MAX_MESSAGES - 1) + 1 = Chat.MAX_MESSAGES + 1 := by decide
      rw [harith]
  · intro u hu1 hu2
    rw [isSpammingStep_some]
    rw [if_neg (show ¬ u < tlast + Chat.MUTE_DURATION by omega)]
    rw [if_pos hu2]
  · intro u hu1 hu2
    rw [isSpammingStep_some]
    rw [if_neg (show ¬ u < tlast + Chat.MUTE_DURATION by omega)]
    rw [if_neg (show ¬ u - t1 > Chat.TIME_WINDOW by omega)]
    rw [if_pos (show Chat.MAX_MESSAGES + 1 + 1 > Chat.MAX_MESSAGES by decide)]

/-- Witness for C8's amended theorem on a concrete trace: fifteen extra
messages at times 1..14 inside the window of the first message at 0. -/
theorem rate_limit_window_witness :
    Chat.runIsSpammingSt none
        (0 :: [1,1,1,1,1,1,1,1,1,1,1,1,1,1] ++ [2]) =
      (List.replicate Chat.MAX_MESSAGES false ++ [true],
        some ⟨Chat.MAX_MESSAGES + 1, 0, 2 + Chat.MUTE_DURATION⟩) ∧
    Chat.isSpammingStep (some ⟨Chat.MAX_MESSAGES + 1, 0, 2 + Chat.MUTE_DURATION⟩) 20000
      = (false, ⟨1, 20000, 0⟩) := by
  have h := rate_limit_window 0 [1,1,1,1,1,1,1,1,1,1,1,1,1,1] 2
    (by decide) (by decide) (by decide)
  exact ⟨h.1, h.2.1 20000 (by decide) (by decide)⟩

/-! ### Ban store and the auth handler's ban check (C4) -/

theorem finishAuth_snd (st : Chat.ServerState) (ws : Nat) (cd : Chat.Session)
    (d f : String) (a q : Bool) (now : Nat) :
    (Chat.finishAuth st ws cd d f a q now).2 = .ok f a q := by
  cases a <;> rfl

theorem finishAuth_bannedDevices (st : Chat.ServerState) (ws : Nat)
    (cd : Chat.Session) (d f : String) (a q : Bool) (now : Nat) :
    (Chat.finishAuth st ws cd d f a q now).1.bannedDevices = st.bannedDevices := by
  cases a <;> rfl

theorem ceilDiv1000_pos (x : Nat) (h : 1 ≤ x) : 1 ≤ Chat.ceilDiv1000 x := by
  unfold Chat.ceilDiv1000
  omega

theorem cancelScheduledCleanup_bannedDevices (st : Chat.ServerState) (d : String) :
    (Chat.cancelScheduledCleanup st d).2.bannedDevices = st.bannedDevices := by
  unfold Chat.cancelScheduledCleanup
  cases lookupA st.disconnectionTimeouts d <;> rfl

theorem authStep_ok_of_notBanned (st : Chat.ServerState) (ws : Nat)
    (cd : Chat.Session) (req d : String) (r : Bool) (now : Nat)
    (hcd : lookupA st.clients ws = some cd)
    (hne : d.isEmpty = false)
    (hban : (Chat.isDeviceBanned st.bannedDevices (some d) now).1 = .notBanned) :
    (∃ f a q, (Chat.authStep st ws req (some d) r now).2 = .ok f a q) ∧
    (Chat.authStep st ws req (some d) r now).1.bannedDevices =
      (Chat.isDeviceBanned st.bannedDevices (some d) now).2 := by
  rcases hsplit : Chat.isDeviceBanned st.bannedDevices (some d) now with ⟨status, cleaned⟩
  rw [hsplit] at hban
  simp only at hban
  subst hban
  simp only [Chat.authStep, hcd, hne, Bool.false_eq_true, if_false, hsplit]
  rcases hcc : Chat.cancelScheduledCleanup
      { st with clients := insertA st.clients ws { cd with terminalMode := some false },
                bannedDevices := cleaned } d with ⟨cflag, st2⟩
  have hst2 : st2.bannedDevices = cleaned := by
    have := cancelScheduledCleanup_bannedDevices
      { st with clients := insertA st.clients ws { cd with terminalMode := some false },
                bannedDevices := cleaned } d
    rw [hcc] at this
    exact this
  simp only [hcc]
  split
  · exact ⟨⟨_, _, _, finishAuth_snd ..⟩, by rw [finishAuth_bannedDevices, hst2]⟩
  · split
    · exact ⟨⟨_, _, _, finishAuth_snd ..⟩, by rw [finishAuth_bannedDevices, hst2]⟩
    · exact ⟨⟨_, _, _, finishAuth_snd ..⟩, by rw [finishAuth_bannedDevices, hst2]⟩

/-- C4: an unexpired ban rejects the identity claim with a positive
remaining-seconds value, allocates no name, binds no device, runs no
further resolution step (no timer cancelled, nothing broadcast) and closes
the connection; a claim at or after the ban's expiry lazily evicts the
entry and succeeds normally. -/
theorem ban_blocks_claim (st : Chat.ServerState) (ws : Nat) (cd : Chat.Session)
    (req d : String) (r : Bool) (exp : Nat) (bu : String) (now : Nat)
    (hcd : lookupA st.clients ws = some cd)
    (hne : d.isEmpty = false)
    (hb : lookupA st.bannedDevices d = some ⟨exp, bu⟩)
    (hnd : (st.bannedDevices.map Prod.fst).Nodup) :
    (now < exp →
      (Chat.authStep st ws req (some d) r now).2
          = .errBanned (Chat.ceilDiv1000 (exp - now)) ∧
      1 ≤ Chat.ceilDiv1000 (exp - now) ∧
      (Chat.authStep st ws req (some d) r now).1.activeUsernames = st.activeUsernames ∧
      (Chat.authStep st ws req (some d) r now).1.deviceToUsername = st.deviceToUsername ∧
      (Chat.authStep st ws req (some d) r now).1.disconnectionTimeouts
          = st.disconnectionTimeouts ∧
      (Chat.authStep st ws req (some d) r now).1.broadcasts = st.broadcasts ∧
      ws ∉ (Chat.authStep st ws req (some d) r now).1.openSockets) ∧
    (exp ≤ now →
      (∃ f a q, (Chat.authStep st ws req (some d) r now).2 = .ok f a q) ∧
      lookupA (Chat.authStep st ws req (some d) r now).1.bannedDevices d = none) := by
  have hfilter := lookupA_filter (fun p => decide (now < p.2.expiresAt))
    st.bannedDevices d ⟨exp, bu⟩ hnd hb
  constructor
  · intro hlt
    have hlook : lookupA (Chat.cleanExpiredBans st.bannedDevices now) d
        = some ⟨exp, bu⟩ := by
      rw [Chat.cleanExpiredBans, hfilter]
      simp [hlt]
    have hsplit : Chat.isDeviceBanned st.bannedDevices (some d) now =
        (.isBanned (Chat.ceilDiv1000 (exp - now)) bu,
          Chat.cleanExpiredBans st.bannedDevices now) := by
      simp [Chat.isDeviceBanned, hne, hlook, Chat.ceilDiv1000]
    have hstep : Chat.authStep st ws req (some d) r now =
        (Chat.closeSocket
          { st with clients := insertA st.clients ws { cd with terminalMode := some false },
                    bannedDevices := Chat.cleanExpiredBans st.bannedDevices now } ws,
          .errBanned (Chat.ceilDiv1000 (exp - now))) := by
      simp only [Chat.authStep, hcd, hne, Bool.false_eq_true, if_false, hsplit]
    rw [hstep]
    exact ⟨rfl, ceilDiv1000_pos _ (by omega), rfl, rfl, rfl, rfl,
      not_mem_eraseS st.openSockets ws⟩
  · intro hge
    have hlook : lookupA (Chat.cleanExpiredBans st.bannedDevices now) d = none := by
      rw [Chat.cleanExpiredBans, hfilter]
      simp
      omega
    have hban1 : (Chat.isDeviceBanned st.bannedDevices (some d) now).1 = .notBanned := by
      simp [Chat.isDeviceBanned, hne, hlook]
    obtain ⟨hok, hbd⟩ :=
      authStep_ok_of_notBanned st ws cd req d r now hcd hne hban1
    refine ⟨hok, ?_⟩
    rw [hbd]
    have h2 : (Chat.isDeviceBanned st.bannedDevices (some d) now).2
        = Chat.cleanExpiredBans st.bannedDevices now := by
      simp [Chat.isDeviceBanned, hne, hlook]
    rw [h2, hlook]

/-- Witness for C4 at a concrete state: device "dev" banned until 5000, a
claim at time 1000 is rejected with 4 remaining seconds. -/
theorem ban_blocks_claim_witness :
    (Chat.authStep
        ⟨[(0, ⟨none, none, false, none⟩)], [], [], [], [], [],
          [("dev", ⟨5000, "bob"⟩)], [0], [], []⟩
        0 "x" (some "dev") false 1000).2
      = .errBanned (Chat.ceilDiv1000 (5000 - 1000)) :=
  ((ban_blocks_claim
      ⟨[(0, ⟨none, none, false, none⟩)], [], [], [], [], [],
        [("dev", ⟨5000, "bob"⟩)], [0], [], []⟩
      0 ⟨none, none, false, none⟩ "x" "dev" false 5000 "bob" 1000
      (by decide) (by decide) (by decide) (by decide)).1 (by decide)).1

/-! ### Quick reconnect (C2) -/

theorem finishAuth_noAnnounce_broadcasts (st : Chat.ServerState) (ws : Nat)
    (cd : Chat.Session) (d f : String) (q : Bool) (now : Nat) :
    (Chat.finishAuth st ws cd d f false q now).1.broadcasts = st.broadcasts := rfl

theorem finishAuth_noAnnounce_deliveries (st : Chat.ServerState) (ws : Nat)
    (cd : Chat.Session) (d f : String) (q : Bool) (now : Nat) :
    (Chat.finishAuth st ws cd d f false q now).1.deliveries = st.deliveries := rfl

/-- C2: device `d` bound to name `u` disconnects by ordinary closure and
reconnects within the grace window (before the grace timer for `d` has
fired): the resolved name is `u` again, the resolution is a quick
reconnect with no arrival announcement, and across the whole
close/reconnect sequence no broadcast at all is issued — in particular no
third-party session observes a departure or an arrival for `u`. -/
theorem quick_reconnect_silent
    (st : Chat.ServerState) (ws ws2 : Nat) (cd : Chat.Session) (u d req : String)
    (r : Bool) (now now2 : Nat)
    (hcd : lookupA st.clients ws = some cd)
    (hdev : cd.deviceId = some d) (husr : cd.username = some u)
    (hde : d.isEmpty = false) (hue : u.isEmpty = false)
    (hd2u : lookupA st.deviceToUsername d = some u)
    (humem : u ∈ st.activeUsernames)
    (hbn : lookupA st.bannedDevices d = none) :
    (Chat.authStep (Chat.connectStep (Chat.closeStep st ws now) ws2) ws2
        req (some d) r now2).2 = .ok u false true ∧
    (Chat.authStep (Chat.connectStep (Chat.closeStep st ws now) ws2) ws2
        req (some d) r now2).1.broadcasts = st.broadcasts ∧
    (Chat.authStep (Chat.connectStep (Chat.closeStep st ws now) ws2) ws2
        req (some d) r now2).1.deliveries = st.deliveries := by
  have hclose : Chat.closeStep st ws now =
      { st with clients := eraseA st.clients ws,
                disconnectionTimeouts := insertA st.disconnectionTimeouts d ⟨u, now⟩,
                openSockets := eraseS st.openSockets ws } := by
    simp only [Chat.closeStep, Chat.closeSocket, Chat.scheduleCleanup, hcd, hdev, husr,
      hde, hue, Bool.or_self, Bool.false_eq_true, if_false]
  rw [hclose]
  have hconn : Chat.connectStep
      { st with clients := eraseA st.clients ws,
                disconnectionTimeouts := insertA st.disconnectionTimeouts d ⟨u, now⟩,
                openSockets := eraseS st.openSockets ws } ws2 =
      { st with clients := insertA (eraseA st.clients ws) ws2 ⟨none, none, false, none⟩,
                disconnectionTimeouts := insertA st.disconnectionTimeouts d ⟨u, now⟩,
                openSockets := insertS (eraseS st.openSockets ws) ws2 } := by
    simp only [Chat.connectStep]
  rw [hconn]
  have hl2 : lookupA (insertA (eraseA st.clients ws) ws2
      (⟨none, none, false, none⟩ : Chat.Session)) ws2
      = some ⟨none, none, false, none⟩ := lookupA_insertA_self ..
  have hcleanlook : lookupA (Chat.cleanExpiredBans st.bannedDevices now2) d = none :=
    lookupA_filter_none _ st.bannedDevices d hbn
  have hsplitban : Chat.isDeviceBanned st.bannedDevices (some d) now2 =
      (.notBanned, Chat.cleanExpiredBans st.bannedDevices now2) := by
    simp [Chat.isDeviceBanned, hde, hcleanlook]
  have hcancel : lookupA (insertA st.disconnectionTimeouts d
      (⟨u, now⟩ : Chat.TimeoutInfo)) d = some ⟨u, now⟩ := lookupA_insertA_self ..
  simp only [Chat.authStep, hl2, hde, Bool.false_eq_true, if_false, hsplitban,
    Chat.cancelScheduledCleanup, hcancel, if_true, hd2u, hue, Bool.not_false,
    Bool.true_and, humem, decide_True, Chat.finishAuth]
  refine ⟨by trivial, by trivial, by trivial⟩

/-- Witness for C2 at a concrete one-user state. -/
theorem quick_reconnect_silent_witness :
    (Chat.authStep (Chat.connectStep (Chat.closeStep
        ⟨[(0, ⟨some "bob", some "dev", true, some false⟩)], [("dev", "bob")],
          ["bob"], [], [], [], [], [0], [], []⟩ 0 500) 1) 1
        "whatever" (some "dev") true 700).2 = .ok "bob" false true :=
  (quick_reconnect_silent
    ⟨[(0, ⟨some "bob", some "dev", true, some false⟩)], [("dev", "bob")],
      ["bob"], [], [], [], [], [0], [], []⟩
    0 1 ⟨some "bob", some "dev", true, some false⟩ "bob" "dev" "whatever" true 500 700
    (by decide) (by decide) (by decide) (by decide) (by decide) (by decide)
    (by decide) (by decide)).1

/-! ### Grace expiry (C3) -/

/-- C3: device `d` bound to `u` disconnects by ordinary closure and does
not reconnect; when the grace timer for `d` fires, exactly one departure
broadcast for `u` is issued (the broadcast trace grows by exactly that one
message), `u` leaves the claimed set, and afterwards a new, unrelated
claim (fresh device `d2`, no reconnect flag) requesting `u` resolves to
`u` itself, announced as a fresh arrival. -/
theorem grace_expiry_departure
    (st : Chat.ServerState) (ws ws2 : Nat) (cd : Chat.Session) (u d d2 : String)
    (now now2 now3 : Nat)
    (hcd : lookupA st.clients ws = some cd)
    (hdev : cd.deviceId = some d) (husr : cd.username = some u)
    (hde : d.isEmpty = false) (hue : u.isEmpty = false)
    (hsan : Chat.sanitizeUsername u = u)
    (hne2 : d2.isEmpty = false) (hd2 : d2 ≠ d)
    (hbn2 : lookupA st.bannedDevices d2 = none)
    (htno2 : lookupA st.disconnectionTimeouts d2 = none)
    (hd2u2 : lookupA st.deviceToUsername d2 = none) :
    (Chat.graceExpire (Chat.closeStep st ws now) d now2).broadcasts
        = st.broadcasts ++ [Chat.departureMsg u] ∧
    u ∉ (Chat.graceExpire (Chat.closeStep st ws now) d now2).activeUsernames ∧
    (Chat.authStep
        (Chat.connectStep (Chat.graceExpire (Chat.closeStep st ws now) d now2) ws2)
        ws2 u (some d2) false now3).2 = .ok u true false := by
  have hclose : Chat.closeStep st ws now =
      { st with clients := eraseA st.clients ws,
                disconnectionTimeouts := insertA st.disconnectionTimeouts d ⟨u, now⟩,
                openSockets := eraseS st.openSockets ws } := by
    simp only [Chat.closeStep, Chat.closeSocket, Chat.scheduleCleanup, hcd, hdev, husr,
      hde, hue, Bool.or_self, Bool.false_eq_true, if_false]
  rw [hclose]
  have hlookT : lookupA (insertA st.disconnectionTimeouts d
      (⟨u, now⟩ : Chat.TimeoutInfo)) d = some ⟨u, now⟩ := lookupA_insertA_self ..
  have hexp : Chat.graceExpire
      { st with clients := eraseA st.clients ws,
                disconnectionTimeouts := insertA st.disconnectionTimeouts d ⟨u, now⟩,
                openSockets := eraseS st.openSockets ws } d now2 =
      Chat.broadcast
        { st with clients := eraseA st.clients ws,
                  activeUsernames := eraseS st.activeUsernames u,
                  deviceToUsername := eraseA st.deviceToUsername d,
                  rateLimits := eraseA st.rateLimits u,
                  disconnectionTimeouts := eraseA st.disconnectionTimeouts d,
                  openSockets := eraseS st.openSockets ws }
        (Chat.departureMsg u) now2 := by
    simp only [Chat.graceExpire, hlookT, eraseA_insertA]
  rw [hexp]
  refine ⟨rfl, ?_, ?_⟩
  · exact not_mem_eraseS st.activeUsernames u
  · have hl2 : lookupA (insertA (eraseA st.clients ws) ws2
        (⟨none, none, false, none⟩ : Chat.Session)) ws2
        = some ⟨none, none, false, none⟩ := lookupA_insertA_self ..
    have hcleanlook : lookupA (Chat.cleanExpiredBans st.bannedDevices now3) d2 = none :=
      lookupA_filter_none _ st.bannedDevices d2 hbn2
    have hsplitban : Chat.isDeviceBanned st.bannedDevices (some d2) now3 =
        (.notBanned, Chat.cleanExpiredBans st.bannedDevices now3) := by
      simp [Chat.isDeviceBanned, hne2, hcleanlook]
    have hcancel : lookupA (eraseA st.disconnectionTimeouts d) d2 = none := by
      rw [lookupA_eraseA_ne st.disconnectionTimeouts d d2 hd2]
      exact htno2
    have hprev : lookupA (eraseA st.deviceToUsername d) d2 = none := by
      rw [lookupA_eraseA_ne st.deviceToUsername d d2 hd2]
      exact hd2u2
    have hgen : Chat.generateUniqueUsername (eraseS st.activeUsernames u) u = u := by
      apply Chat.generateUniqueUsername_base
      · rw [if_neg (by simp [hue])]
        exact hsan
      · exact not_mem_eraseS st.activeUsernames u
    simp only [Chat.connectStep, Chat.broadcast, Chat.authStep, hl2, hne2,
      Bool.false_eq_true, if_false, hsplitban, Chat.cancelScheduledCleanup, hcancel,
      hprev, hgen, Chat.finishAuth]

/-- Witness for C3 at a concrete one-user state. -/
theorem grace_expiry_departure_witness :
    (Chat.authStep
        (Chat.connectStep (Chat.graceExpire (Chat.closeStep
          ⟨[(7, ⟨some "bob", some "dev", true, some false⟩)], [("dev", "bob")],
            ["bob"], [], [], [], [], [7], [], []⟩ 7 100) "dev" 20000) 9)
        9 "bob" (some "other") false 30000).2 = .ok "bob" true false :=
  (grace_expiry_departure
    ⟨[(7, ⟨some "bob", some "dev", true, some false⟩)], [("dev", "bob")],
      ["bob"], [], [], [], [], [7], [], []⟩
    7 9 ⟨some "bob", some "dev", true, some false⟩ "bob" "dev" "other" 100 20000 30000
    (by decide) (by decide) (by decide) (by decide) (by decide) (by decide)
    (by decide) (by decide) (by decide) (by decide) (by decide)).2.2

/-! ### Sessions without a device token (C5) -/

def c5State : Chat.ServerState :=
  ⟨[(0, ⟨some "bob", none, true, some true⟩)], [], ["bob"], [], [], [], [], [0], [], []⟩

/-- C5 counterexample: a terminal-authenticated session holding "bob" with
no device token closes; the code removes the session and creates no grace
entry, but "bob" does NOT leave the claimed set — `scheduleCleanup`
returns before releasing the username, so it stays in `activeUsernames`.
This falsifies "its display name leaves the claimed set at the moment of
closure". -/
theorem no_device_close_counterexample :
    "bob" ∈ (Chat.closeStep c5State 0 1000).activeUsernames ∧
    lookupA (Chat.closeStep c5State 0 1000).clients 0 = none ∧
    (Chat.closeStep c5State 0 1000).disconnectionTimeouts = [] := by
  refine ⟨by decide, by decide, by decide⟩

/-- C5 amended: closing a session that has no device token removes it from
the live-session set immediately and creates no grace entry, but does not
release its identity — the display name stays in the claimed set (and
nothing is broadcast). -/
theorem no_device_close_amended (st : Chat.ServerState) (ws : Nat) (now : Nat)
    (cd : Chat.Session)
    (hcd : lookupA st.clients ws = some cd)
    (hdev : cd.deviceId = none)
    (hnd : (st.clients.map Prod.fst).Nodup) :
    lookupA (Chat.closeStep st ws now).clients ws = none ∧
    (Chat.closeStep st ws now).disconnectionTimeouts = st.disconnectionTimeouts ∧
    (Chat.closeStep st ws now).activeUsernames = st.activeUsernames ∧
    (Chat.closeStep st ws now).broadcasts = st.broadcasts ∧
    (Chat.closeStep st ws now).deliveries = st.deliveries := by
  have hstep : Chat.closeStep st ws now =
      { st with clients := eraseA st.clients ws,
                openSockets := eraseS st.openSockets ws } := by
    simp only [Chat.closeStep, Chat.closeSocket, Chat.scheduleCleanup, hcd, hdev]
  rw [hstep]
  exact ⟨lookupA_eraseA_self st.clients ws hnd, rfl, rfl, rfl, rfl⟩

/-- Witness for C5's amended theorem at the concrete no-device state. -/
theorem no_device_close_amended_witness :
    lookupA (Chat.closeStep c5State 0 1000).clients 0 = none ∧
    (Chat.closeStep c5State 0 1000).activeUsernames = c5State.activeUsernames :=
  ⟨(no_device_close_amended c5State 0 1000 ⟨some "bob", none, true, some true⟩
      (by decide) (by decide) (by decide)).1,
    (no_device_close_amended c5State 0 1000 ⟨some "bob", none, true, some true⟩
      (by decide) (by decide) (by decide)).2.2.1⟩

/-! ### Teardown paths remove the session first (C6) -/

theorem scheduleCleanup_spec (st : Chat.ServerState) (ws : Nat) (now : Nat)
    (cd : Chat.Session) (hcd : lookupA st.clients ws = some cd) :
    (Chat.scheduleCleanup st ws now).clients = eraseA st.clients ws ∧
    (Chat.scheduleCleanup st ws now).deliveries = st.deliveries ∧
    (Chat.scheduleCleanup st ws now).broadcasts = st.broadcasts := by
  simp only [Chat.scheduleCleanup, hcd]
  cases cd.deviceId with
  | none => cases cd.username <;> refine ⟨?_, ?_, ?_⟩ <;> trivial
  | some d =>
    cases cd.username with
    | none => refine ⟨?_, ?_, ?_⟩ <;> trivial
    | some u =>
      dsimp only
      by_cases he : (d.isEmpty || u.isEmpty) = true
      · rw [if_pos he]
        refine ⟨?_, ?_, ?_⟩ <;> trivial
      · rw [if_neg he]
        refine ⟨?_, ?_, ?_⟩ <;> trivial

theorem immediateCleanup_spec (st : Chat.ServerState) (ws : Nat)
    (cd : Chat.Session) (hcd : lookupA st.clients ws = some cd) :
    (Chat.immediateCleanup st ws).1 = some (cd.username, cd.deviceId) ∧
    (Chat.immediateCleanup st ws).2.clients = eraseA st.clients ws ∧
    (Chat.immediateCleanup st ws).2.deliveries = st.deliveries ∧
    (Chat.immediateCleanup st ws).2.broadcasts = st.broadcasts ∧
    (Chat.immediateCleanup st ws).2.openSockets = st.openSockets ∧
    (Chat.immediateCleanup st ws).2.bannedDevices = st.bannedDevices ∧
    (Chat.immediateCleanup st ws).2.messageHistory = st.messageHistory := by
  simp only [Chat.immediateCleanup, hcd]
  cases cd.deviceId with
  | none =>
    cases cd.username with
    | none => refine ⟨?_, ?_, ?_, ?_, ?_, ?_, ?_⟩ <;> trivial
    | some u =>
      dsimp only
      by_cases hu : u.isEmpty = true
      · rw [if_pos hu]; refine ⟨?_, ?_, ?_, ?_, ?_, ?_, ?_⟩ <;> trivial
      · rw [if_neg hu]; refine ⟨?_, ?_, ?_, ?_, ?_, ?_, ?_⟩ <;> trivial
  | some d =>
    cases cd.username with
    | none =>
      dsimp only
      by_cases hd : d.isEmpty = true
      · rw [if_pos hd]; refine ⟨?_, ?_, ?_, ?_, ?_, ?_, ?_⟩ <;> trivial
      · rw [if_neg hd]; refine ⟨?_, ?_, ?_, ?_, ?_, ?_, ?_⟩ <;> trivial
    | some u =>
      dsimp only
      by_cases hd : d.isEmpty = true
      · rw [if_pos hd]
        by_cases hu : u.isEmpty = true
        · rw [if_pos hu]; refine ⟨?_, ?_, ?_, ?_, ?_, ?_, ?_⟩ <;> trivial
        · rw [if_neg hu]; refine ⟨?_, ?_, ?_, ?_, ?_, ?_, ?_⟩ <;> trivial
      · rw [if_neg hd]
        by_cases hu : u.isEmpty = true
        · rw [if_pos hu]; refine ⟨?_, ?_, ?_, ?_, ?_, ?_, ?_⟩ <;> trivial
        · rw [if_neg hu]; refine ⟨?_, ?_, ?_, ?_, ?_, ?_, ?_⟩ <;> trivial

theorem recipients_mem (s : Chat.ServerState) (w : Nat) (hw : w ∈ Chat.recipients s) :
    ∃ sess, (w, sess) ∈ s.clients ∧ sess.authenticated = true := by
  unfold Chat.recipients at hw
  rw [List.mem_map] at hw
  obtain ⟨⟨w₀, sess⟩, hmem, heq⟩ := hw
  obtain ⟨hmem2, hcond⟩ := List.mem_filter.mp hmem
  cases heq
  simp only [Bool.and_eq_true] at hcond
  exact ⟨sess, hmem2, hcond.1⟩

theorem broadcast_deliveries_mem (s : Chat.ServerState) (msg : String) (now : Nat)
    (w : Nat) (m : String)
    (h : (w, m) ∈ (Chat.broadcast s msg now).deliveries) :
    (w, m) ∈ s.deliveries ∨ w ∈ Chat.recipients s := by
  unfold Chat.broadcast at h
  simp only [List.mem_append] at h
  rcases h with h | h
  · exact Or.inl h
  · rw [List.mem_map] at h
    obtain ⟨w₀, hw0, heq⟩ := h
    cases heq
    exact Or.inr hw0

theorem findTarget_mem : ∀ (l : List (Nat × Chat.Session)) (t : String)
    (w : Nat) (s : Chat.Session), Chat.findTarget l t = some (w, s) →
    (w, s) ∈ l ∧ s.username = some t ∧ s.authenticated = true := by
  intro l t
  induction l with
  | nil => intro w s h; simp [Chat.findTarget] at h
  | cons p rest ih =>
    intro w s h
    obtain ⟨w', s'⟩ := p
    by_cases hc : s'.username = some t ∧ s'.authenticated = true
    · simp only [Chat.findTarget, if_pos hc] at h
      rw [Option.some.injEq] at h
      have hw : w' = w := congrArg Prod.fst h
      have hs : s' = s := congrArg Prod.snd h
      subst hw; subst hs
      exact ⟨List.mem_cons_self _ _, hc.1, hc.2⟩
    · simp only [Chat.findTarget, if_neg hc] at h
      obtain ⟨hm, hu, ha⟩ := ih w s h
      exact ⟨List.mem_cons_of_mem _ hm, hu, ha⟩

theorem not_recipient_of_lookup_none (s : Chat.ServerState) (w : Nat)
    (h : lookupA s.clients w = none) : w ∉ Chat.recipients s := by
  intro hw
  obtain ⟨sess, hmem, _⟩ := recipients_mem s w hw
  have hk : w ∈ s.clients.map Prod.fst := List.mem_map.mpr ⟨(w, sess), hmem, rfl⟩
  exact absurd h (by
    obtain ⟨v, hv⟩ := lookupA_isSome_of_mem_keys s.clients w hk
    rw [hv]
    simp)

theorem logout_removes_first (st : Chat.ServerState) (ws : Nat) (now : Nat)
    (cd : Chat.Session) (hcd : lookupA st.clients ws = some cd)
    (hauth : cd.authenticated = true)
    (hnd : (st.clients.map Prod.fst).Nodup) :
    lookupA ((Chat.logoutStep st ws now).1).clients ws = none ∧
    (∀ m, (ws, m) ∈ ((Chat.logoutStep st ws now).1).deliveries →
      (ws, m) ∈ st.deliveries) := by
  rcases hic : Chat.immediateCleanup st ws with ⟨info, st1⟩
  have hspec := immediateCleanup_spec st ws cd hcd
  rw [hic] at hspec
  simp only at hspec
  obtain ⟨hinfo, hcl, hdel, hbc, hos, hbd, hmh⟩ := hspec
  have hlk1 : lookupA st1.clients ws = none := by
    rw [hcl]; exact lookupA_eraseA_self st.clients ws hnd
  cases husr : cd.username with
  | none =>
    rw [husr] at hinfo
    subst hinfo
    have hstep : (Chat.logoutStep st ws now) = (Chat.closeSocket st1 ws, .loggedOut) := by
      simp only [Chat.logoutStep, hcd, hauth, Bool.not_true, Bool.false_eq_true,
        if_false, hic]
    rw [hstep]
    exact ⟨hlk1, fun m hm => hdel ▸ hm⟩
  | some u =>
    rw [husr] at hinfo
    subst hinfo
    by_cases hue : u.isEmpty = true
    · have hstep : (Chat.logoutStep st ws now) = (Chat.closeSocket st1 ws, .loggedOut) := by
        simp only [Chat.logoutStep, hcd, hauth, Bool.not_true, Bool.false_eq_true,
          if_false, hic]
        rw [if_pos hue]
      rw [hstep]
      exact ⟨hlk1, fun m hm => hdel ▸ hm⟩
    · have hstep : (Chat.logoutStep st ws now) =
          (Chat.closeSocket (Chat.broadcast st1 (Chat.departureMsg u) now) ws,
            .loggedOut) := by
        simp only [Chat.logoutStep, hcd, hauth, Bool.not_true, Bool.false_eq_true,
          if_false, hic]
        rw [if_neg hue]
      rw [hstep]
      refine ⟨hlk1, ?_⟩
      intro m hm
      rcases broadcast_deliveries_mem st1 (Chat.departureMsg u) now ws m hm with hm2 | hm2
      · exact hdel ▸ hm2
      · exact absurd hm2 (not_recipient_of_lookup_none st1 ws hlk1)

theorem kick_removes_first (st : Chat.ServerState) (target actor : String)
    (seconds now : Nat) (w : Nat) (s : Chat.Session)
    (hnd : (st.clients.map Prod.fst).Nodup)
    (hfind : Chat.findTarget st.clients target = some (w, s)) :
    lookupA ((Chat.kickStep st target actor seconds now).1).clients w = none ∧
    (∀ m, (w, m) ∈ ((Chat.kickStep st target actor seconds now).1).deliveries →
      (w, m) ∈ st.deliveries) := by
  obtain ⟨hmem, _, _⟩ := findTarget_mem st.clients target w s hfind
  have hcd : lookupA st.clients w = some s := lookupA_of_mem_nodup st.clients w s hnd hmem
  rcases hic : Chat.immediateCleanup st w with ⟨info, st1⟩
  have hspec := immediateCleanup_spec st w s hcd
  rw [hic] at hspec
  simp only at hspec
  obtain ⟨hinfo, hcl, hdel, hbc, hos, hbd, hmh⟩ := hspec
  have hlk1 : lookupA st1.clients w = none := by
    rw [hcl]; exact lookupA_eraseA_self st.clients w hnd
  have hlk2 : ∀ st2 : Chat.ServerState, st2.clients = st1.clients →
      ∀ msg, lookupA ((Chat.broadcast st2 msg now).clients) w = none ∧
        (∀ m, (w, m) ∈ (Chat.broadcast st2 msg now).deliveries →
          (w, m) ∈ st2.deliveries) := by
    intro st2 hc2 msg
    constructor
    · show lookupA st2.clients w = none
      rw [hc2]; exact hlk1
    · intro m hm
      rcases broadcast_deliveries_mem st2 msg now w m hm with hm2 | hm2
      · exact hm2
      · exfalso
        exact not_recipient_of_lookup_none st2 w (hc2 ▸ hlk1) hm2
  cases hsd : s.deviceId with
  | none =>
    have hstep : Chat.kickStep st target actor seconds now =
        (Chat.broadcast (Chat.closeSocket st1 w) (Chat.kickMsgPlain target actor) now,
          .kicked) := by
      simp only [Chat.kickStep, hfind, hic, hsd]
    rw [hstep]
    refine ⟨?_, ?_⟩
    · show lookupA (Chat.closeSocket st1 w).clients w = none
      exact hlk1
    · intro m hm
      have := (hlk2 (Chat.closeSocket st1 w) rfl (Chat.kickMsgPlain target actor)).2 m hm
      exact hdel ▸ this
  | some d =>
    by_cases hcond : (!d.isEmpty && decide (seconds > 0)) = true
    · have hstep : Chat.kickStep st target actor seconds now =
          (Chat.broadcast
            { Chat.closeSocket st1 w with
              bannedDevices := Chat.banDevice (Chat.closeSocket st1 w).bannedDevices
                d target seconds now }
            (Chat.kickMsgBan target actor seconds) now, .kicked) := by
        simp only [Chat.kickStep, hfind, hic, hsd]
        rw [if_pos hcond]
      rw [hstep]
      refine ⟨?_, ?_⟩
      · show lookupA (Chat.closeSocket st1 w).clients w = none
        exact hlk1
      · intro m hm
        have := (hlk2
          { Chat.closeSocket st1 w with
            bannedDevices := Chat.banDevice (Chat.closeSocket st1 w).bannedDevices
              d target seconds now } rfl (Chat.kickMsgBan target actor seconds)).2 m hm
        exact hdel ▸ this
    · have hstep : Chat.kickStep st target actor seconds now =
          (Chat.broadcast (Chat.closeSocket st1 w) (Chat.kickMsgPlain target actor) now,
            .kicked) := by
        simp only [Chat.kickStep, hfind, hic, hsd]
        rw [if_neg hcond]
      rw [hstep]
      refine ⟨?_, ?_⟩
      · show lookupA (Chat.closeSocket st1 w).clients w = none
        exact hlk1
      · intro m hm
        have := (hlk2 (Chat.closeSocket st1 w) rfl (Chat.kickMsgPlain target actor)).2 m hm
        exact hdel ▸ this

/-- C6: every teardown trigger removes the session from the live-session
set (`clients`, the set the broadcast fan-out consults) synchronously,
before any timer or broadcast: after an ordinary close the session is gone
and the step broadcasts and delivers nothing; after an explicit logout the
session is gone and the logged-out socket receives no delivery of the
step; after an admin kick the kicked session is gone and receives no
delivery of the step; and in general a broadcast only ever delivers to
sessions present in `clients`, so a removed session is never counted
again. -/
theorem teardown_removes_session_first (st : Chat.ServerState) (now : Nat)
    (hnd : (st.clients.map Prod.fst).Nodup) :
    (∀ ws cd, lookupA st.clients ws = some cd →
      lookupA (Chat.closeStep st ws now).clients ws = none ∧
      (Chat.closeStep st ws now).deliveries = st.deliveries ∧
      (Chat.closeStep st ws now).broadcasts = st.broadcasts) ∧
    (∀ ws cd, lookupA st.clients ws = some cd → cd.authenticated = true →
      lookupA ((Chat.logoutStep st ws now).1).clients ws = none ∧
      (∀ m, (ws, m) ∈ ((Chat.logoutStep st ws now).1).deliveries →
        (ws, m) ∈ st.deliveries)) ∧
    (∀ target actor seconds w s, Chat.findTarget st.clients target = some (w, s) →
      lookupA ((Chat.kickStep st target actor seconds now).1).clients w = none ∧
      (∀ m, (w, m) ∈ ((Chat.kickStep st target actor seconds now).1).deliveries →
        (w, m) ∈ st.deliveries)) ∧
    (∀ w m msg, (w, m) ∈ (Chat.broadcast st msg now).deliveries →
      (w, m) ∈ st.deliveries ∨
        ∃ sess, lookupA st.clients w = some sess ∧ sess.authenticated = true) := by
  refine ⟨?_, ?_, ?_, ?_⟩
  · intro ws cd hcd
    have hspec := scheduleCleanup_spec (Chat.closeSocket st ws) ws now cd hcd
    unfold Chat.closeStep
    refine ⟨?_, hspec.2.1, hspec.2.2⟩
    rw [hspec.1]
    exact lookupA_eraseA_self st.clients ws hnd
  · intro ws cd hcd hauth
    exact logout_removes_first st ws now cd hcd hauth hnd
  · intro target actor seconds w s hfind
    exact kick_removes_first st target actor seconds now w s hnd hfind
  · intro w m msg hm
    rcases broadcast_deliveries_mem st msg now w m hm with hm2 | hm2
    · exact Or.inl hm2
    · obtain ⟨sess, hmem, hauth⟩ := recipients_mem st w hm2
      exact Or.inr ⟨sess, lookupA_of_mem_nodup st.clients w sess hnd hmem, hauth⟩

/-- Witness for C6 at a concrete two-session state: the logged-out session
is removed from the live set. -/
theorem teardown_removes_session_first_witness :
    lookupA ((Chat.logoutStep
        ⟨[(0, ⟨some "a", some "d1", true, some false⟩),
          (1, ⟨some "b", some "d2", true, some false⟩)],
          [("d1", "a"), ("d2", "b")], ["a", "b"], [], [], [], [], [0, 1], [], []⟩
        0 1000).1).clients 0 = none :=
  ((teardown_removes_session_first
      ⟨[(0, ⟨some "a", some "d1", true, some false⟩),
        (1, ⟨some "b", some "d2", true, some false⟩)],
        [("d1", "a"), ("d2", "b")], ["a", "b"], [], [], [], [], [0, 1], [], []⟩
      1000 (by decide)).2.1 0 ⟨some "a", some "d1", true, some false⟩
      (by decide) (by decide)).1

/-! ### Kick with a zero-second ban (C10) -/

/-- C10: kicking an authenticated user with `seconds = 0` removes the
session immediately and broadcasts the kick message, but creates no ban
entry — the banned-devices table is untouched, so the kicked device's next
identity claim is not rejected as banned. -/
theorem kick_zero_seconds_no_ban (st : Chat.ServerState) (target actor : String)
    (now : Nat) (w : Nat) (s : Chat.Session) (d : String)
    (hnd : (st.clients.map Prod.fst).Nodup)
    (hfind : Chat.findTarget st.clients target = some (w, s))
    (hdev : s.deviceId = some d)
    (hbn : lookupA st.bannedDevices d = none) :
    (Chat.kickStep st target actor 0 now).2 = .kicked ∧
    (Chat.kickStep st target actor 0 now).1.bannedDevices = st.bannedDevices ∧
    lookupA (Chat.kickStep st target actor 0 now).1.clients w = none ∧
    (Chat.kickStep st target actor 0 now).1.broadcasts
        = st.broadcasts ++ [Chat.kickMsgPlain target actor] ∧
    (∀ now2, (Chat.isDeviceBanned (Chat.kickStep st target actor 0 now).1.bannedDevices
        (some d) now2).1 = .notBanned) := by
  obtain ⟨hmem, _, _⟩ := findTarget_mem st.clients target w s hfind
  have hcd : lookupA st.clients w = some s := lookupA_of_mem_nodup st.clients w s hnd hmem
  rcases hic : Chat.immediateCleanup st w with ⟨info, st1⟩
  have hspec := immediateCleanup_spec st w s hcd
  rw [hic] at hspec
  simp only at hspec
  obtain ⟨hinfo, hcl, hdel, hbc, hos, hbd, hmh⟩ := hspec
  have hstep : Chat.kickStep st target actor 0 now =
      (Chat.broadcast (Chat.closeSocket st1 w) (Chat.kickMsgPlain target actor) now,
        .kicked) := by
    simp only [Chat.kickStep, hfind, hic, hdev]
    rw [if_neg (by simp)]
  rw [hstep]
  have hbanfinal : (Chat.broadcast (Chat.closeSocket st1 w)
      (Chat.kickMsgPlain target actor) now).bannedDevices = st.bannedDevices := hbd
  refine ⟨rfl, hbanfinal, ?_, ?_, ?_⟩
  · show lookupA st1.clients w = none
    rw [hcl]
    exact lookupA_eraseA_self st.clients w hnd
  · show st1.broadcasts ++ [Chat.kickMsgPlain target actor]
        = st.broadcasts ++ [Chat.kickMsgPlain target actor]
    rw [hbc]
  · intro now2
    rw [hbanfinal]
    by_cases hde : d.isEmpty = true
    · simp [Chat.isDeviceBanned, hde]
    · have hlk : lookupA (Chat.cleanExpiredBans st.bannedDevices now2) d = none :=
        lookupA_filter_none _ st.bannedDevices d hbn
      simp [Chat.isDeviceBanned, hde, hlk]

/-- Witness for C10 at a concrete one-user state. -/
theorem kick_zero_seconds_no_ban_witness :
    (Chat.kickStep
        ⟨[(3, ⟨some "carol", some "dev", true, some false⟩)], [("dev", "carol")],
          ["carol"], [], [], [], [], [3], [], []⟩
        "carol" "admin1" 0 1000).1.bannedDevices = [] :=
  (kick_zero_seconds_no_ban
    ⟨[(3, ⟨some "carol", some "dev", true, some false⟩)], [("dev", "carol")],
      ["carol"], [], [], [], [], [3], [], []⟩
    "carol" "admin1" 1000 3 ⟨some "carol", some "dev", true, some false⟩ "dev"
    (by decide) (by decide) (by decide) (by decide)).2.1

/-! ## The `deviceConnections` revision of `server.js` (preemption, C1)

Transition-system model.  Each constructor of `Step` is one serialized
event of the server: a new connection, one handled message (`auth`,
`chat`, `changeUsername`, `logout`, an admin `/kick`), a socket
close/error event, a grace-timer expiry, or a kick-ban expiry. -/

namespace Srv

structure CData where
  username : Option String
  deviceId : Option String
  authenticated : Bool
deriving DecidableEq

structure Dev where
  ws : Nat
  username : String
  color : Nat
deriving DecidableEq

/-- Data captured by a grace-timeout callback's closure. -/
structure TCap where
  ws : Nat
  username : Option String
deriving DecidableEq

structure State where
  clients : List (Nat × CData)
  deviceConnections : List (String × Dev)
  usernames : List String
  messageHistory : List String
  rateLimits : List (String × Chat.RateState)
  disconnectTimeouts : List (String × TCap)
  bannedDevices : List String
  openSockets : List Nat
  colorIndex : Nat
  nextId : Nat
deriving DecidableEq

def MAX_MESSAGES : Nat := 5
def TIME_WINDOW : Nat := 10 * 1000
def MUTE_DURATION : Nat := 15 * 1000

def pushHistory (hist : List String) (msg : String) : List String :=
  let h := hist ++ [msg]
  if h.length > 100 then h.tail else h

def departureMsg (u : String) : String := "[" ++ u ++ "] ha salido del chat."

def joinMsg (u : String) : String := "[" ++ u ++ "] se ha unido al chat."

def kickedMsg (u : String) : String :=
  "[ADMIN] " ++ u ++ " ha sido expulsado del chat."

/-- The whitespace JavaScript `trim()` strips from these ASCII names. -/
def isWsChar (c : Char) : Bool :=
  c == ' ' || c == '\t' || c == '\n' || c == '\r'

/-- `name.trim()`, written over the character list so that concrete
states of the transition system evaluate inside the kernel. -/
def jsTrim (s : String) : String :=
  String.mk (((s.data.dropWhile isWsChar).reverse.dropWhile isWsChar).reverse)

/-- `validateUsername`: trim, reject inner spaces and bad lengths. -/
def validateUsername (name : String) : Option String :=
  let cleaned := jsTrim name
  if ' ' ∈ cleaned.data then none
  else if cleaned.data.length = 0 ∨ cleaned.data.length > 20 then none
  else some cleaned

def candidateDash (base : String) (k : Nat) : String := base ++ "-" ++ Nat.repr k

/-- The dash-suffix `while` loop of this revision's `generateUniqueUsername`. -/
def suffixLoopDash (usernames : List String) (base : String) : Nat → Nat → String
  | 0, counter => candidateDash base counter
  | fuel + 1, counter =>
      if candidateDash base counter ∈ usernames then
        suffixLoopDash usernames base fuel (counter + 1)
      else candidateDash base counter

def generateUniqueUsername (usernames : List String) (baseName : String) : String :=
  if baseName ∈ usernames then suffixLoopDash usernames baseName (usernames.length + 1) 1
  else baseName

/-- This revision's `isSpamming` (N = 5, W = 10 s, M = 15 s). -/
def isSpamming (rl : List (String × Chat.RateState)) (username : String)
    (now : Nat) : Bool × List (String × Chat.RateState) :=
  match lookupA rl username with
  | none => (false, insertA rl username ⟨1, now, 0⟩)
  | some u =>
    if now < u.mutedUntil then (true, rl)
    else if now - u.lastReset > TIME_WINDOW then
      (false, insertA rl username ⟨1, now, 0⟩)
    else
      let c := u.count + 1
      if c > MAX_MESSAGES then (true, insertA rl username ⟨c, u.lastReset, now + MUTE_DURATION⟩)
      else (false, insertA rl username ⟨c, u.lastReset, u.mutedUntil⟩)

/-- Immediate-cleanup tail of `cleanupClient`: release the device's
registration (and name) only when this socket still owns it. -/
def purgeDevice (st : State) (ws : Nat) (cd : CData) (d : String) : State :=
  match lookupA st.deviceConnections d with
  | some dev =>
    if dev.ws = ws then
      let st3 := { st with deviceConnections := eraseA st.deviceConnections d }
      match cd.username with
      | some u =>
        if u.isEmpty then st3
        else { st3 with usernames := eraseS st3.usernames u,
                        rateLimits := eraseA st3.rateLimits u }
      | none => st3
    else st
  | none => st

/-- `cleanupClient(ws, immediate)`: drop the session; with a device,
cancel its pending timer, then either purge at once or schedule the
grace timer. -/
def cleanupClient (st : State) (ws : Nat) (immediate : Bool) : State :=
  match lookupA st.clients ws with
  | none => st
  | some cd =>
    let st1 := { st with clients := eraseA st.clients ws }
    match cd.deviceId with
    | none => st1
    | some d =>
      if d.isEmpty then st1 else
      let st2 := { st1 with disconnectTimeouts := eraseA st1.disconnectTimeouts d }
      if immediate then purgeDevice st2 ws cd d
      else
        { st2 with disconnectTimeouts := insertA st2.disconnectTimeouts d ⟨ws, cd.username⟩ }

/-- The grace timer's callback: if the device has no (other, still open)
registered connection, purge it and announce the departure. -/
def timerFire (st : State) (d : String) : State :=
  match lookupA st.disconnectTimeouts d with
  | none => st
  | some cap =>
    let st1 := { st with disconnectTimeouts := eraseA st.disconnectTimeouts d }
    let release : State :=
      let st2 := { st1 with deviceConnections := eraseA st1.deviceConnections d }
      match cap.username with
      | some u =>
        if u.isEmpty then st2
        else { st2 with usernames := eraseS st2.usernames u,
                        rateLimits := eraseA st2.rateLimits u,
                        messageHistory := pushHistory st2.messageHistory (departureMsg u) }
      | none => st2
    match lookupA st1.deviceConnections d with
    | none => release
    | some dev =>
      if dev.ws = cap.ws ∨ dev.ws ∉ st1.openSockets then release else st1

/-- Registration tail of this revision's `auth` handler. -/
def finishAuth (st : State) (ws : Nat) (d finalName : String) (color : Nat)
    (isNewUser isReconnect : Bool) : State :=
  let st1 := { st with
    usernames := insertS st.usernames finalName,
    clients := insertA st.clients ws ⟨some finalName, some d, true⟩,
    deviceConnections := insertA st.deviceConnections d ⟨ws, finalName, color⟩ }
  if isNewUser ∧ ¬isReconnect then
    { st1 with messageHistory := pushHistory st1.messageHistory (joinMsg finalName) }
  else st1

/-- Preemption: if another open socket is registered for this device,
send it "replaced" and close it. -/
def preempt (st : State) (ws : Nat) (existing : Option Dev) : State :=
  match existing with
  | some e =>
    if e.ws ≠ ws ∧ e.ws ∈ st.openSockets then
      { st with openSockets := eraseS st.openSockets e.ws }
    else st
  | none => st

/-- Fresh-name path: free the session's current name, validate, allocate;
an invalid requested name makes the handler return after an error send. -/
def nameGenPath (st : State) (ws : Nat) (cd : CData) (req d : String)
    (color : Nat) (isNewUser isReconnect : Bool) : State :=
  let st4 :=
    match cd.username with
    | some u => if u.isEmpty then st else { st with usernames := eraseS st.usernames u }
    | none => st
  match validateUsername (if req.isEmpty then "anon" else req) with
  | none => st4
  | some v =>
      finishAuth st4 ws d (generateUniqueUsername st4.usernames v) color
        isNewUser isReconnect

/-- Main branch of the `auth` handler (device present, not banned). -/
def authMain (st : State) (ws : Nat) (cd : CData) (req d : String)
    (isReconnect : Bool) : State :=
  let st1 := { st with disconnectTimeouts := eraseA st.disconnectTimeouts d }
  let existing := lookupA st1.deviceConnections d
  let st2 := preempt st1 ws existing
  match existing with
  | some e =>
    if isReconnect ∧ e.username.isEmpty = false then
      finishAuth st2 ws d e.username e.color false isReconnect
    else nameGenPath st2 ws cd req d e.color true isReconnect
  | none =>
      nameGenPath { st2 with colorIndex := st2.colorIndex + 1 } ws cd req d
        (st2.colorIndex % 6) true isReconnect

/-- `ws.close()` on an error path of the handler. -/
def closePath (st : State) (ws : Nat) : State :=
  { st with openSockets := eraseS st.openSockets ws }

/-- The `auth` message handler. -/
def authStep (st : State) (ws : Nat) (req : String) (deviceId : Option String)
    (isReconnect : Bool) : State :=
  match lookupA st.clients ws with
  | none => closePath st ws
  | some cd =>
    match deviceId with
    | none => closePath st ws
    | some d =>
      if d.isEmpty then closePath st ws
      else if d ∈ st.bannedDevices then closePath st ws
      else authMain st ws cd req d isReconnect

/-- The `chat` message handler (plain text path). -/
def chatStep (st : State) (ws : Nat) (msg : String) (now : Nat) : State :=
  match lookupA st.clients ws with
  | none => closePath st ws
  | some cd =>
    if cd.authenticated = false then st
    else if msg.trim.isEmpty then st
    else
      match cd.username with
      | some u =>
        let p := isSpamming st.rateLimits u now
        let st1 := { st with rateLimits := p.2 }
        if p.1 then st1
        else { st1 with
          messageHistory := pushHistory st1.messageHistory ("[" ++ u ++ "]: " ++ msg) }
      | none => st

/-- The `changeUsername` message handler. -/
def changeUsernameStep (st : State) (ws : Nat) (newUsername : String) : State :=
  match lookupA st.clients ws with
  | none => closePath st ws
  | some cd =>
    if cd.authenticated = false then st
    else
      match validateUsername newUsername with
      | none => st
      | some v =>
        let st1 :=
          match cd.username with
          | some u => if u.isEmpty then st else { st with usernames := eraseS st.usernames u }
          | none => st
        let finalName := generateUniqueUsername st1.usernames v
        let st2 := { st1 with
          usernames := insertS st1.usernames finalName,
          clients := insertA st1.clients ws { cd with username := some finalName } }
        let st3 :=
          match cd.deviceId with
          | some d =>
            if d.isEmpty then st2 else
            match lookupA st2.deviceConnections d with
            | some dev =>
              { st2 with deviceConnections :=
                  insertA st2.deviceConnections d { dev with username := finalName } }
            | none => st2
          | none => st2
        let renameMsg := "[" ++ (cd.username.getD "") ++ "] ahora es [" ++ finalName ++ "]"
        { st3 with messageHistory := pushHistory st3.messageHistory renameMsg }

/-- The `logout` message handler: immediate cleanup, then the departure
broadcast. -/
def logoutStep (st : State) (ws : Nat) : State :=
  match lookupA st.clients ws with
  | none => closePath st ws
  | some cd =>
    let st1 := cleanupClient st ws true
    match cd.username with
    | some u =>
      if u.isEmpty then st1
      else { st1 with messageHistory := pushHistory st1.messageHistory (departureMsg u) }
    | none => st1

/-- First session whose username matches, in map order (`kickUser`). -/
def findTargetU : List (Nat × CData) → String → Option (Nat × CData)
  | [], _ => none
  | (w, c) :: rest, t => if c.username = some t then some (w, c) else findTargetU rest t

/-- The admin `/kick` command: ban the device, purge and close the
session, broadcast. -/
def kickStep (st : State) (target : String) : State :=
  match findTargetU st.clients target with
  | none => st
  | some (w, c) =>
    let st1 :=
      match c.deviceId with
      | some d =>
        if d.isEmpty then st else { st with bannedDevices := insertS st.bannedDevices d }
      | none => st
    let st2 := cleanupClient st1 w true
    let st3 := { st2 with openSockets := eraseS st2.openSockets w }
    { st3 with messageHistory := pushHistory st3.messageHistory (kickedMsg target) }

/-- The admin `/removeuser` command (`removeMessages`): clear the whole
history, or drop one author's messages, then broadcast. -/
def removeMessagesStep (st : State) (target : String) : State :=
  if Chat.jsToLower target = "all" then
    { st with messageHistory :=
        pushHistory [] "[ADMIN] Todos los mensajes han sido eliminados." }
  else
    let kept := st.messageHistory.filter
      (fun m => !(("[" ++ target ++ "]").isPrefixOf m))
    if kept.length < st.messageHistory.length then
      { st with messageHistory :=
          pushHistory kept ("[ADMIN] mensajes de " ++ target ++ " han sido eliminados.") }
    else st

/-- The 5-minute kick-ban expiry timer. -/
def banExpireStep (st : State) (d : String) : State :=
  { st with bannedDevices := eraseS st.bannedDevices d }

/-- A new WebSocket connection. -/
def connectStep (st : State) : State :=
  { st with clients := insertA st.clients st.nextId ⟨none, none, false⟩,
            openSockets := insertS st.openSockets st.nextId,
            nextId := st.nextId + 1 }

/-- The socket `close` event: the socket is gone, grace cleanup runs. -/
def closeEvt (st : State) (ws : Nat) : State :=
  cleanupClient { st with openSockets := eraseS st.openSockets ws } ws false

/-- The socket `error` event: grace cleanup runs. -/
def errorEvt (st : State) (ws : Nat) : State :=
  cleanupClient st ws false

/-- One serialized server event.  The relation over-approximates the
`chat` handler's admin dispatch: a command-shaped message may also take
the plain-chat transition, so every behavior of the server is included
(a superset of transitions only strengthens a reachability invariant). -/
inductive Step : State → State → Prop where
  | connect (st : State) : Step st (connectStep st)
  | auth (st : State) (ws : Nat) (req : String) (dev : Option String) (r : Bool) :
      Step st (authStep st ws req dev r)
  | chat (st : State) (ws : Nat) (msg : String) (now : Nat) :
      Step st (chatStep st ws msg now)
  | rename (st : State) (ws : Nat) (newName : String) :
      Step st (changeUsernameStep st ws newName)
  | logout (st : State) (ws : Nat) : Step st (logoutStep st ws)
  | kick (st : State) (target : String) : Step st (kickStep st target)
  | removeMsgs (st : State) (target : String) : Step st (removeMessagesStep st target)
  | closed (st : State) (ws : Nat) : Step st (closeEvt st ws)
  | errored (st : State) (ws : Nat) : Step st (errorEvt st ws)
  | timer (st : State) (d : String) : Step st (timerFire st d)
  | banLift (st : State) (d : String) : Step st (banExpireStep st d)

def initState : State := ⟨[], [], [], [], [], [], [], [], 0, 0⟩

inductive Reachable : State → Prop where
  | init : Reachable initState
  | step {st st2 : State} : Reachable st → Step st st2 → Reachable st2

/-- Every stored socket id is below the fresh-id counter. -/
def idBound (st : State) : Prop :=
  (∀ w, w ∈ st.clients.map Prod.fst → w < st.nextId) ∧
  (∀ w, w ∈ st.openSockets → w < st.nextId) ∧
  (∀ p, p ∈ st.deviceConnections → (Prod.snd p).ws < st.nextId) ∧
  (∀ p, p ∈ st.disconnectTimeouts → (Prod.snd p).ws < st.nextId)

/-- A socket captured by a pending grace timer has left `clients`. -/
def capturedGone (st : State) : Prop :=
  ∀ d cap, lookupA st.disconnectTimeouts d = some cap →
    lookupA st.clients cap.ws = none

/-- Every open session bound to a device is the device's registered
connection. -/
def deviceBinding (st : State) : Prop :=
  ∀ w c d, lookupA st.clients w = some c → c.deviceId = some d →
    w ∈ st.openSockets →
    ∃ e, lookupA st.deviceConnections d = some e ∧ e.ws = w

def keysNodup (st : State) : Prop :=
  (st.clients.map Prod.fst).Nodup ∧
  (st.deviceConnections.map Prod.fst).Nodup ∧
  (st.disconnectTimeouts.map Prod.fst).Nodup

def Inv (st : State) : Prop :=
  idBound st ∧ capturedGone st ∧ deviceBinding st ∧ keysNodup st

end Srv

/-! ### Membership lemmas for the map/set kit -/

theorem mem_of_lookupA_some {α β : Type} [DecidableEq α]
    (l : List (α × β)) (k : α) (v : β) (h : lookupA l k = some v) :
    (k, v) ∈ l := by
  induction l with
  | nil => simp [lookupA] at h
  | cons q rest ih =>
    obtain ⟨k', v'⟩ := q
    by_cases hk : k = k'
    · subst hk
      simp only [lookupA, if_true] at h
      injection h with h
      subst h
      exact List.mem_cons_self _ _
    · simp only [lookupA, if_neg hk] at h
      exact List.mem_cons_of_mem _ (ih h)

theorem mem_keys_of_lookupA_some {α β : Type} [DecidableEq α]
    (l : List (α × β)) (k : α) (v : β) (h : lookupA l k = some v) :
    k ∈ l.map Prod.fst :=
  List.mem_map.mpr ⟨(k, v), mem_of_lookupA_some l k v h, rfl⟩

theorem mem_insertA {α β : Type} [DecidableEq α]
    (l : List (α × β)) (k : α) (v : β) (p : α × β) (h : p ∈ insertA l k v) :
    p ∈ l ∨ p = (k, v) := by
  induction l with
  | nil =>
    simp only [insertA, List.mem_singleton] at h
    exact Or.inr h
  | cons q rest ih =>
    obtain ⟨k', v'⟩ := q
    by_cases hk : k = k'
    · subst hk
      simp only [insertA, if_true, List.mem_cons] at h
      rcases h with h | h
      · exact Or.inr h
      · exact Or.inl (List.mem_cons_of_mem _ h)
    · simp only [insertA, if_neg hk, List.mem_cons] at h
      rcases h with h | h
      · exact Or.inl (by rw [h]; exact List.mem_cons_self _ _)
      · rcases ih h with h2 | h2
        · exact Or.inl (List.mem_cons_of_mem _ h2)
        · exact Or.inr h2

theorem mem_eraseA {α β : Type} [DecidableEq α]
    (l : List (α × β)) (k : α) (p : α × β) (h : p ∈ eraseA l k) : p ∈ l := by
  induction l with
  | nil => simp [eraseA] at h
  | cons q rest ih =>
    obtain ⟨k', v'⟩ := q
    by_cases hk : k = k'
    · subst hk
      simp only [eraseA, if_true] at h
      exact List.mem_cons_of_mem _ h
    · simp only [eraseA, if_neg hk, List.mem_cons] at h
      rcases h with h | h
      · exact (by rw [h]; exact List.mem_cons_self _ _)
      · exact List.mem_cons_of_mem _ (ih h)

theorem mem_keys_insertA {α β : Type} [DecidableEq α]
    (l : List (α × β)) (k : α) (v : β) (a : α) :
    a ∈ (insertA l k v).map Prod.fst ↔ a ∈ l.map Prod.fst ∨ a = k := by
  induction l with
  | nil => simp [insertA]
  | cons q rest ih =>
    obtain ⟨k', v'⟩ := q
    by_cases hk : k = k'
    · subst hk
      simp only [insertA, if_true, List.map_cons, List.mem_cons]
      tauto
    · simp only [insertA, if_neg hk, List.map_cons, List.mem_cons, ih]
      tauto

theorem nodup_keys_insertA {α β : Type} [DecidableEq α]
    (l : List (α × β)) (k : α) (v : β) (h : (l.map Prod.fst).Nodup) :
    ((insertA l k v).map Prod.fst).Nodup := by
  induction l with
  | nil => simp [insertA]
  | cons q rest ih =>
    obtain ⟨k', v'⟩ := q
    simp only [List.map_cons, List.nodup_cons] at h
    by_cases hk : k = k'
    · subst hk
      simp only [insertA, if_true, List.map_cons, List.nodup_cons]
      exact ⟨h.1, h.2⟩
    · simp only [insertA, if_neg hk, List.map_cons, List.nodup_cons]
      refine ⟨?_, ih h.2⟩
      intro hm
      rcases (mem_keys_insertA rest k v k').mp hm with hm | hm
      · exact h.1 hm
      · exact hk hm.symm

theorem keys_eraseA_sublist {α β : Type} [DecidableEq α]
    (l : List (α × β)) (k : α) :
    ((eraseA l k).map Prod.fst).Sublist (l.map Prod.fst) := by
  induction l with
  | nil => simp [eraseA]
  | cons q rest ih =>
    obtain ⟨k', v'⟩ := q
    by_cases hk : k = k'
    · subst hk
      simp only [eraseA, if_true, List.map_cons]
      exact List.Sublist.cons _ (List.Sublist.refl _)
    · simp only [eraseA, if_neg hk, List.map_cons]
      exact List.Sublist.cons₂ _ ih

theorem nodup_keys_eraseA {α β : Type} [DecidableEq α]
    (l : List (α × β)) (k : α) (h : (l.map Prod.fst).Nodup) :
    ((eraseA l k).map Prod.fst).Nodup :=
  List.Nodup.sublist (keys_eraseA_sublist l k) h

theorem mem_eraseS {α : Type} [DecidableEq α] (l : List α) (a b : α)
    (h : b ∈ eraseS l a) : b ∈ l :=
  List.mem_of_mem_filter h

/-! ### Preservation of `Srv.Inv`, transition by transition -/

namespace Srv

/-- `Inv` reads none of the fields changed here. -/
theorem inv_frame (st : State) (u m : List String)
    (r : List (String × Chat.RateState)) (b : List String) (c : Nat)
    (h : Inv st) :
    Inv { st with usernames := u, messageHistory := m, rateLimits := r,
                  bannedDevices := b, colorIndex := c } := h

theorem inv_openErase (st : State) (x : Nat) (h : Inv st) :
    Inv { st with openSockets := eraseS st.openSockets x } := by
  obtain ⟨⟨hb1, hb2, hb3, hb4⟩, hcap, hbind, hnd⟩ := h
  refine ⟨⟨hb1, ?_, hb3, hb4⟩, hcap, ?_, hnd⟩
  · intro w hw
    exact hb2 w (mem_eraseS _ _ _ hw)
  · intro w c d hw hd hop
    exact hbind w c d hw hd (mem_eraseS _ _ _ hop)

theorem inv_closePath (st : State) (ws : Nat) (h : Inv st) :
    Inv (closePath st ws) :=
  inv_openErase st ws h

theorem inv_timeoutsErase (st : State) (d : String) (h : Inv st) :
    Inv { st with disconnectTimeouts := eraseA st.disconnectTimeouts d } := by
  obtain ⟨⟨hb1, hb2, hb3, hb4⟩, hcap, hbind, hn1, hn2, hn3⟩ := h
  refine ⟨⟨hb1, hb2, hb3, ?_⟩, ?_, hbind, hn1, hn2, ?_⟩
  · intro p hp
    exact hb4 p (mem_eraseA _ _ _ hp)
  · intro d' cap hc
    by_cases hdd : d' = d
    · subst hdd
      rw [lookupA_eraseA_self _ _ hn3] at hc
      simp at hc
    · rw [lookupA_eraseA_ne _ _ _ hdd] at hc
      exact hcap d' cap hc
  · exact nodup_keys_eraseA _ _ hn3

theorem inv_clientsErase (st : State) (ws : Nat) (h : Inv st) :
    Inv { st with clients := eraseA st.clients ws } := by
  obtain ⟨⟨hb1, hb2, hb3, hb4⟩, hcap, hbind, hn1, hn2, hn3⟩ := h
  refine ⟨⟨?_, hb2, hb3, hb4⟩, ?_, ?_, ?_, hn2, hn3⟩
  · intro w hw
    exact hb1 w ((keys_eraseA_sublist _ _).subset hw)
  · intro d cap hc
    have h0 := hcap d cap hc
    by_cases hw : cap.ws = ws
    · rw [hw]
      exact lookupA_eraseA_self _ _ hn1
    · rw [lookupA_eraseA_ne _ _ _ hw]
      exact h0
  · intro w c d hw hd hop
    by_cases hww : w = ws
    · subst hww
      rw [lookupA_eraseA_self _ _ hn1] at hw
      simp at hw
    · rw [lookupA_eraseA_ne _ _ _ hww] at hw
      exact hbind w c d hw hd hop
  · exact nodup_keys_eraseA _ _ hn1

end Srv

namespace Srv

theorem inv_purgeDevice (st : State) (ws : Nat) (cd : CData) (d : String)
    (h : Inv st) (hout : lookupA st.clients ws = none) :
    Inv (purgeDevice st ws cd d) := by
  unfold purgeDevice
  rcases hdev : lookupA st.deviceConnections d with _ | dev
  · exact h
  · dsimp only
    by_cases hws : dev.ws = ws
    · rw [if_pos hws]
      obtain ⟨⟨hb1, hb2, hb3, hb4⟩, hcap, hbind, hn1, hn2, hn3⟩ := h
      have hcore : Inv { st with deviceConnections := eraseA st.deviceConnections d } := by
        refine ⟨⟨hb1, hb2, ?_, hb4⟩, hcap, ?_, hn1, ?_, hn3⟩
        · intro p hp
          exact hb3 p (mem_eraseA _ _ _ hp)
        · intro w c d' hw hd hop
          by_cases hdd : d' = d
          · subst hdd
            obtain ⟨e, he, hews⟩ := hbind w c _ hw hd hop
            rw [hdev] at he
            injection he with he
            subst he
            rw [hws] at hews
            subst hews
            rw [hout] at hw
            simp at hw
          · rw [lookupA_eraseA_ne _ _ _ hdd]
            exact hbind w c d' hw hd hop
        · exact nodup_keys_eraseA _ _ hn2
      rcases cd.username with _ | u
      · exact hcore
      · dsimp only
        by_cases hu : u.isEmpty
        · rw [if_pos hu]
          exact hcore
        · rw [if_neg hu]
          exact inv_frame _ _ _ _ _ _ hcore
    · rw [if_neg hws]
      exact h

theorem inv_cleanupClient (st : State) (ws : Nat) (imm : Bool) (h : Inv st) :
    Inv (cleanupClient st ws imm) := by
  unfold cleanupClient
  rcases hws : lookupA st.clients ws with _ | cd
  · exact h
  · dsimp only
    have h1 : Inv { st with clients := eraseA st.clients ws } :=
      inv_clientsErase st ws h
    rcases hdid : cd.deviceId with _ | d
    · exact h1
    · dsimp only
      by_cases hde : d.isEmpty
      · rw [if_pos hde]
        exact h1
      · rw [if_neg hde]
        have h2 : Inv { st with clients := eraseA st.clients ws, disconnectTimeouts := eraseA st.disconnectTimeouts d } := inv_timeoutsErase _ d h1
        cases imm with
        | true =>
          rw [if_pos rfl]
          apply inv_purgeDevice _ ws cd d h2
          exact lookupA_eraseA_self _ _ h.2.2.2.1
        | false =>
          rw [if_neg Bool.false_ne_true]
          obtain ⟨⟨hb1, hb2, hb3, hb4⟩, hcap, hbind, hn1, hn2, hn3⟩ := h2
          refine ⟨⟨hb1, hb2, hb3, ?_⟩, ?_, hbind, hn1, hn2, ?_⟩
          · intro p hp
            rcases mem_insertA _ _ _ _ hp with hp | hp
            · exact hb4 p hp
            · rw [hp]
              exact h.1.1 ws (mem_keys_of_lookupA_some _ _ _ hws)
          · intro d' cap hc
            by_cases hdd : d' = d
            · subst hdd
              rw [lookupA_insertA_self] at hc
              injection hc with hc
              rw [← hc]
              exact lookupA_eraseA_self _ _ h.2.2.2.1
            · rw [lookupA_insertA_ne _ _ _ _ hdd] at hc
              exact hcap d' cap hc
          · exact nodup_keys_insertA _ _ _ hn3

end Srv

namespace Srv

theorem preempt_clients (st : State) (ws : Nat) (ex : Option Dev) :
    (preempt st ws ex).clients = st.clients := by
  cases ex with
  | none => rfl
  | some e =>
    simp only [preempt]
    split <;> rfl

theorem preempt_open_sub (st : State) (ws : Nat) (ex : Option Dev) (w : Nat)
    (h : w ∈ (preempt st ws ex).openSockets) : w ∈ st.openSockets := by
  cases ex with
  | none => exact h
  | some e =>
    simp only [preempt] at h
    by_cases hc : e.ws ≠ ws ∧ e.ws ∈ st.openSockets
    · rw [if_pos hc] at h
      exact mem_eraseS _ _ _ h
    · rw [if_neg hc] at h
      exact h

theorem inv_preempt (st : State) (ws : Nat) (ex : Option Dev) (h : Inv st) :
    Inv (preempt st ws ex) := by
  cases ex with
  | none => exact h
  | some e =>
    simp only [preempt]
    split
    · exact inv_openErase st e.ws h
    · exact h

/-- After preemption, the claiming socket is the only open session that
can be bound to device `d`. -/
def soleDevice (st : State) (ws : Nat) (d : String) : Prop :=
  ∀ w c, lookupA st.clients w = some c → c.deviceId = some d →
    w ∈ st.openSockets → w = ws

theorem preempt_sole (st : State) (ws : Nat) (d : String) (h : Inv st) :
    soleDevice (preempt st ws (lookupA st.deviceConnections d)) ws d := by
  intro w c hw hd hop
  rw [preempt_clients] at hw
  have hopSt : w ∈ st.openSockets := preempt_open_sub _ _ _ _ hop
  obtain ⟨e2, he2, hews2⟩ := h.2.2.1 w c d hw hd hopSt
  rcases he : lookupA st.deviceConnections d with _ | e
  · rw [he] at he2
    simp at he2
  · rw [he] at he2 hop
    injection he2 with he2
    subst he2
    by_cases hc : e.ws ≠ ws ∧ e.ws ∈ st.openSockets
    · simp only [preempt] at hop
      rw [if_pos hc] at hop
      dsimp only at hop
      rw [← hews2] at hop
      exact absurd hop (not_mem_eraseS _ _)
    · push_neg at hc
      by_cases hws2 : e.ws = ws
      · rw [← hews2, hws2]
      · have h3 := hc hws2
        rw [hews2] at h3
        exact absurd hopSt h3

theorem inv_finishAuth (st : State) (ws : Nat) (d f : String) (color : Nat)
    (b r : Bool) (h : Inv st) (hws : ws ∈ st.clients.map Prod.fst)
    (hsole : soleDevice st ws d) :
    Inv (finishAuth st ws d f color b r) := by
  have hcore : Inv { st with usernames := insertS st.usernames f, clients := insertA st.clients ws ⟨some f, some d, true⟩, deviceConnections := insertA st.deviceConnections d ⟨ws, f, color⟩ } := by
    obtain ⟨⟨hb1, hb2, hb3, hb4⟩, hcap, hbind, hn1, hn2, hn3⟩ := h
    refine ⟨⟨?_, hb2, ?_, hb4⟩, ?_, ?_, ?_, ?_, hn3⟩
    · intro w hw
      rcases (mem_keys_insertA _ _ _ _).mp hw with hw | hw
      · exact hb1 w hw
      · rw [hw]
        exact hb1 ws hws
    · intro p hp
      rcases mem_insertA _ _ _ _ hp with hp | hp
      · exact hb3 p hp
      · rw [hp]
        exact hb1 ws hws
    · intro d' cap hc
      have h0 := hcap d' cap hc
      have hne : cap.ws ≠ ws := by
        intro hEq
        rw [hEq] at h0
        rcases lookupA_isSome_of_mem_keys _ _ hws with ⟨v, hv⟩
        rw [hv] at h0
        simp at h0
      rw [lookupA_insertA_ne _ _ _ _ hne]
      exact h0
    · intro w c d' hw hd hop
      by_cases hww : w = ws
      · subst hww
        rw [lookupA_insertA_self] at hw
        injection hw with hw
        have hd2 : some d = some d' := by
          rw [← hw] at hd
          exact hd
        injection hd2 with hd2
        rw [← hd2]
        exact ⟨⟨w, f, color⟩, lookupA_insertA_self _ _ _, rfl⟩
      · rw [lookupA_insertA_ne _ _ _ _ hww] at hw
        have hop2 : w ∈ st.openSockets := hop
        by_cases hdd : d' = d
        · subst hdd
          exact absurd (hsole w c hw hd hop2) hww
        · obtain ⟨e, he, hews⟩ := hbind w c d' hw hd hop2
          rw [lookupA_insertA_ne _ _ _ _ hdd]
          exact ⟨e, he, hews⟩
    · exact nodup_keys_insertA _ _ _ hn1
    · exact nodup_keys_insertA _ _ _ hn2
  unfold finishAuth
  dsimp only
  split
  · exact inv_frame _ _ _ _ _ _ hcore
  · exact hcore

end Srv

namespace Srv

theorem inv_nameGenPath (st : State) (ws : Nat) (cd : CData) (req d : String)
    (color : Nat) (b r : Bool) (h : Inv st)
    (hws : ws ∈ st.clients.map Prod.fst) (hsole : soleDevice st ws d) :
    Inv (nameGenPath st ws cd req d color b r) := by
  unfold nameGenPath
  dsimp only
  rcases hu : cd.username with _ | u
  · rcases hv : validateUsername (if req.isEmpty then "anon" else req) with _ | v
    · exact h
    · exact inv_finishAuth _ ws d _ color b r h hws hsole
  · dsimp only
    by_cases hue : u.isEmpty = true
    · rw [if_pos hue]
      split
      · exact h
      · exact inv_finishAuth _ ws d _ color b r h hws hsole
    · rw [if_neg hue]
      split
      · exact inv_frame _ _ _ _ _ _ h
      · exact inv_finishAuth _ ws d _ color b r (inv_frame st _ _ _ _ _ h) hws hsole

theorem inv_authMain (st : State) (ws : Nat) (cd : CData) (req d : String)
    (r : Bool) (h : Inv st) (hws : lookupA st.clients ws = some cd) :
    Inv (authMain st ws cd req d r) := by
  unfold authMain
  dsimp only
  have h1 : Inv { st with disconnectTimeouts := eraseA st.disconnectTimeouts d } :=
    inv_timeoutsErase st d h
  have hkeys : ws ∈ st.clients.map Prod.fst := mem_keys_of_lookupA_some _ _ _ hws
  have hsole := preempt_sole { st with disconnectTimeouts := eraseA st.disconnectTimeouts d } ws d h1
  have h2 := inv_preempt { st with disconnectTimeouts := eraseA st.disconnectTimeouts d } ws (lookupA st.deviceConnections d) h1
  rcases he : lookupA st.deviceConnections d with _ | e
  · rw [he] at hsole
    dsimp only
    exact inv_nameGenPath _ ws cd req d _ true r (inv_frame _ _ _ _ _ _ h1) hkeys hsole
  · rw [he] at hsole h2
    have hkeys2 : ws ∈ (preempt { st with disconnectTimeouts := eraseA st.disconnectTimeouts d } ws (some e)).clients.map Prod.fst := by
      rw [preempt_clients]
      exact hkeys
    dsimp only
    split
    · exact inv_finishAuth _ ws d _ _ false r h2 hkeys2 hsole
    · exact inv_nameGenPath _ ws cd req d _ true r h2 hkeys2 hsole

theorem inv_authStep (st : State) (ws : Nat) (req : String)
    (dev : Option String) (r : Bool) (h : Inv st) :
    Inv (authStep st ws req dev r) := by
  unfold authStep
  rcases hws : lookupA st.clients ws with _ | cd
  · exact inv_closePath st ws h
  · dsimp only
    rcases dev with _ | d
    · exact inv_closePath st ws h
    · dsimp only
      split
      · exact inv_closePath st ws h
      · split
        · exact inv_closePath st ws h
        · exact inv_authMain st ws cd req d r h hws

end Srv

namespace Srv

theorem inv_chatStep (st : State) (ws : Nat) (msg : String) (now : Nat)
    (h : Inv st) : Inv (chatStep st ws msg now) := by
  unfold chatStep
  rcases hws : lookupA st.clients ws with _ | cd
  · exact inv_closePath st ws h
  · dsimp only
    split
    · exact h
    · split
      · exact h
      · rcases cd.username with _ | u
        · exact h
        · dsimp only
          split
          · exact inv_frame _ _ _ _ _ _ h
          · exact inv_frame _ _ _ _ _ _ h

theorem inv_rename_clients (st : State) (ws : Nat) (cd : CData) (f : String)
    (h : Inv st) (hws : lookupA st.clients ws = some cd) :
    Inv { st with clients := insertA st.clients ws { cd with username := some f } } := by
  obtain ⟨⟨hb1, hb2, hb3, hb4⟩, hcap, hbind, hn1, hn2, hn3⟩ := h
  refine ⟨⟨?_, hb2, hb3, hb4⟩, ?_, ?_, ?_, hn2, hn3⟩
  · intro w hw
    rcases (mem_keys_insertA _ _ _ _).mp hw with hw | hw
    · exact hb1 w hw
    · rw [hw]
      exact hb1 ws (mem_keys_of_lookupA_some _ _ _ hws)
  · intro d' cap hc
    have h0 := hcap d' cap hc
    have hne : cap.ws ≠ ws := by
      intro hEq
      rw [hEq, hws] at h0
      simp at h0
    rw [lookupA_insertA_ne _ _ _ _ hne]
    exact h0
  · intro w c d' hw hd hop
    by_cases hww : w = ws
    · subst hww
      rw [lookupA_insertA_self] at hw
      injection hw with hw
      have hd0 : cd.deviceId = some d' := by
        rw [← hw] at hd
        exact hd
      exact hbind _ cd d' hws hd0 hop
    · rw [lookupA_insertA_ne _ _ _ _ hww] at hw
      exact hbind w c d' hw hd hop
  · exact nodup_keys_insertA _ _ _ hn1

theorem inv_rename_devConn (st : State) (d : String) (dev : Dev) (f : String)
    (h : Inv st) (hdev : lookupA st.deviceConnections d = some dev) :
    Inv { st with deviceConnections := insertA st.deviceConnections d { dev with username := f } } := by
  obtain ⟨⟨hb1, hb2, hb3, hb4⟩, hcap, hbind, hn1, hn2, hn3⟩ := h
  refine ⟨⟨hb1, hb2, ?_, hb4⟩, hcap, ?_, hn1, ?_, hn3⟩
  · intro p hp
    rcases mem_insertA _ _ _ _ hp with hp | hp
    · exact hb3 p hp
    · rw [hp]
      exact hb3 (d, dev) (mem_of_lookupA_some _ _ _ hdev)
  · intro w c d' hw hd hop
    obtain ⟨e, he, hews⟩ := hbind w c d' hw hd hop
    by_cases hdd : d' = d
    · subst hdd
      rw [hdev] at he
      injection he with he
      subst he
      exact ⟨{ dev with username := f }, lookupA_insertA_self _ _ _, hews⟩
    · rw [lookupA_insertA_ne _ _ _ _ hdd]
      exact ⟨e, he, hews⟩
  · exact nodup_keys_insertA _ _ _ hn2

theorem inv_changeUsernameStep (st : State) (ws : Nat) (newU : String)
    (h : Inv st) : Inv (changeUsernameStep st ws newU) := by
  unfold changeUsernameStep
  rcases hws : lookupA st.clients ws with _ | cd
  · exact inv_closePath st ws h
  · obtain ⟨cu, cdev, cauth⟩ := cd
    dsimp only
    split
    · exact h
    · split
      · exact h
      · rcases cu with _ | u
        · dsimp only
          rcases cdev with _ | d
          · dsimp only
            exact inv_frame _ _ _ _ _ _ (inv_rename_clients st ws _ _ h hws)
          · dsimp only
            split
            · exact inv_frame _ _ _ _ _ _ (inv_rename_clients st ws _ _ h hws)
            · rcases hdev : lookupA st.deviceConnections d with _ | dev
              · exact inv_frame _ _ _ _ _ _ (inv_rename_clients st ws _ _ h hws)
              · exact inv_frame _ _ _ _ _ _
                  (inv_rename_devConn _ d dev _ (inv_rename_clients st ws _ _ h hws) hdev)
        · dsimp only
          by_cases hue : u.isEmpty = true
          · rw [if_pos hue]
            rcases cdev with _ | d
            · dsimp only
              exact inv_frame _ _ _ _ _ _ (inv_rename_clients st ws _ _ h hws)
            · dsimp only
              split
              · exact inv_frame _ _ _ _ _ _ (inv_rename_clients st ws _ _ h hws)
              · rcases hdev : lookupA st.deviceConnections d with _ | dev
                · exact inv_frame _ _ _ _ _ _ (inv_rename_clients st ws _ _ h hws)
                · exact inv_frame _ _ _ _ _ _
                    (inv_rename_devConn _ d dev _ (inv_rename_clients st ws _ _ h hws) hdev)
          · rw [if_neg hue]
            have hB : Inv { st with usernames := eraseS st.usernames u } :=
              inv_frame st _ _ _ _ _ h
            rcases cdev with _ | d
            · dsimp only
              exact inv_frame _ _ _ _ _ _ (inv_rename_clients _ ws _ _ hB hws)
            · dsimp only
              split
              · exact inv_frame _ _ _ _ _ _ (inv_rename_clients _ ws _ _ hB hws)
              · rcases hdev : lookupA st.deviceConnections d with _ | dev
                · exact inv_frame _ _ _ _ _ _ (inv_rename_clients _ ws _ _ hB hws)
                · exact inv_frame _ _ _ _ _ _
                    (inv_rename_devConn _ d dev _ (inv_rename_clients _ ws _ _ hB hws) hdev)

theorem inv_logoutStep (st : State) (ws : Nat) (h : Inv st) :
    Inv (logoutStep st ws) := by
  unfold logoutStep
  rcases hws : lookupA st.clients ws with _ | cd
  · exact inv_closePath st ws h
  · dsimp only
    have h1 := inv_cleanupClient st ws true h
    rcases cd.username with _ | u
    · exact h1
    · dsimp only
      split
      · exact h1
      · exact inv_frame _ _ _ _ _ _ h1

theorem inv_kickStep (st : State) (target : String) (h : Inv st) :
    Inv (kickStep st target) := by
  unfold kickStep
  rcases ht : findTargetU st.clients target with _ | p
  · exact h
  · rcases p with ⟨w, c⟩
    dsimp only
    rcases c.deviceId with _ | d
    · exact inv_frame _ _ _ _ _ _ (inv_openErase _ w (inv_cleanupClient st w true h))
    · dsimp only
      split
      · exact inv_frame _ _ _ _ _ _ (inv_openErase _ w (inv_cleanupClient st w true h))
      · exact inv_frame _ _ _ _ _ _
          (inv_openErase _ w (inv_cleanupClient _ w true (inv_frame _ _ _ _ _ _ h)))

theorem inv_removeMessagesStep (st : State) (target : String) (h : Inv st) :
    Inv (removeMessagesStep st target) := by
  unfold removeMessagesStep
  split
  · exact inv_frame _ _ _ _ _ _ h
  · dsimp only
    split
    · exact inv_frame _ _ _ _ _ _ h
    · exact h

end Srv

namespace Srv

theorem inv_connectStep (st : State) (h : Inv st) : Inv (connectStep st) := by
  obtain ⟨⟨hb1, hb2, hb3, hb4⟩, hcap, hbind, hn1, hn2, hn3⟩ := h
  unfold connectStep
  refine ⟨⟨?_, ?_, ?_, ?_⟩, ?_, ?_, ?_, hn2, hn3⟩
  · intro w hw
    rcases (mem_keys_insertA _ _ _ _).mp hw with hw | hw
    · exact Nat.lt_succ_of_lt (hb1 w hw)
    · rw [hw]
      exact Nat.lt_succ_self _
  · intro w hw
    rcases (mem_insertS _ _ _).mp hw with hw | hw
    · exact Nat.lt_succ_of_lt (hb2 w hw)
    · rw [hw]
      exact Nat.lt_succ_self _
  · intro p hp
    exact Nat.lt_succ_of_lt (hb3 p hp)
  · intro p hp
    exact Nat.lt_succ_of_lt (hb4 p hp)
  · intro d cap hc
    have h0 := hcap d cap hc
    have hne : cap.ws ≠ st.nextId := by
      intro hEq
      have h2 := hb4 _ (mem_of_lookupA_some _ _ _ hc)
      rw [hEq] at h2
      exact Nat.lt_irrefl _ h2
    rw [lookupA_insertA_ne _ _ _ _ hne]
    exact h0
  · intro w c d hw hd hop
    by_cases hww : w = st.nextId
    · subst hww
      rw [lookupA_insertA_self] at hw
      injection hw with hw
      have hd2 : (none : Option String) = some d := by
        rw [← hw] at hd
        exact hd
      simp at hd2
    · rw [lookupA_insertA_ne _ _ _ _ hww] at hw
      have hop2 : w ∈ st.openSockets := by
        rcases (mem_insertS _ _ _).mp hop with hx | hx
        · exact hx
        · exact absurd hx hww
      exact hbind w c d hw hd hop2
  · exact nodup_keys_insertA _ _ _ hn1

theorem inv_closeEvt (st : State) (ws : Nat) (h : Inv st) : Inv (closeEvt st ws) :=
  inv_cleanupClient _ ws false (inv_openErase st ws h)

theorem inv_errorEvt (st : State) (ws : Nat) (h : Inv st) : Inv (errorEvt st ws) :=
  inv_cleanupClient st ws false h

theorem inv_timerFire (st : State) (d : String) (h : Inv st) :
    Inv (timerFire st d) := by
  unfold timerFire
  rcases hcap : lookupA st.disconnectTimeouts d with _ | cap
  · exact h
  · dsimp only
    have h1 : Inv { st with disconnectTimeouts := eraseA st.disconnectTimeouts d } :=
      inv_timeoutsErase st d h
    rcases hdev : lookupA st.deviceConnections d with _ | dev
    · have hcore : Inv { st with deviceConnections := eraseA st.deviceConnections d, disconnectTimeouts := eraseA st.disconnectTimeouts d } := by
        obtain ⟨⟨hb1, hb2, hb3, hb4⟩, hcap2, hbind, hn1, hn2, hn3⟩ := h
        refine ⟨⟨hb1, hb2, ?_, ?_⟩, ?_, ?_, hn1, ?_, ?_⟩
        · intro p hp
          exact hb3 p (mem_eraseA _ _ _ hp)
        · intro p hp
          exact hb4 p (mem_eraseA _ _ _ hp)
        · intro d' cap' hc
          by_cases hdd : d' = d
          · subst hdd
            rw [lookupA_eraseA_self _ _ hn3] at hc
            simp at hc
          · rw [lookupA_eraseA_ne _ _ _ hdd] at hc
            exact hcap2 d' cap' hc
        · intro w c d' hw hd hop
          by_cases hdd : d' = d
          · subst hdd
            obtain ⟨e, he, hews⟩ := hbind w c _ hw hd hop
            rw [hdev] at he
            simp at he
          · rw [lookupA_eraseA_ne _ _ _ hdd]
            exact hbind w c d' hw hd hop
        · exact nodup_keys_eraseA _ _ hn2
        · exact nodup_keys_eraseA _ _ hn3
      rcases cap.username with _ | u
      · exact hcore
      · dsimp only
        split
        · exact hcore
        · exact inv_frame _ _ _ _ _ _ hcore
    · dsimp only
      split
      · next hg =>
        have hcore : Inv { st with deviceConnections := eraseA st.deviceConnections d, disconnectTimeouts := eraseA st.disconnectTimeouts d } := by
          obtain ⟨⟨hb1, hb2, hb3, hb4⟩, hcap2, hbind, hn1, hn2, hn3⟩ := h
          refine ⟨⟨hb1, hb2, ?_, ?_⟩, ?_, ?_, hn1, ?_, ?_⟩
          · intro p hp
            exact hb3 p (mem_eraseA _ _ _ hp)
          · intro p hp
            exact hb4 p (mem_eraseA _ _ _ hp)
          · intro d' cap' hc
            by_cases hdd : d' = d
            · subst hdd
              rw [lookupA_eraseA_self _ _ hn3] at hc
              simp at hc
            · rw [lookupA_eraseA_ne _ _ _ hdd] at hc
              exact hcap2 d' cap' hc
          · intro w c d' hw hd hop
            by_cases hdd : d' = d
            · subst hdd
              obtain ⟨e, he, hews⟩ := hbind w c _ hw hd hop
              rw [hdev] at he
              injection he with he
              subst he
              rcases hg with hg | hg
              · rw [hg] at hews
                have h0 := hcap2 _ cap hcap
                rw [hews] at h0
                have hw2 : lookupA st.clients w = some c := hw
                rw [h0] at hw2
                simp at hw2
              · rw [hews] at hg
                exact absurd hop hg
            · rw [lookupA_eraseA_ne _ _ _ hdd]
              exact hbind w c d' hw hd hop
          · exact nodup_keys_eraseA _ _ hn2
          · exact nodup_keys_eraseA _ _ hn3
        rcases cap.username with _ | u
        · exact hcore
        · dsimp only
          split
          · exact hcore
          · exact inv_frame _ _ _ _ _ _ hcore
      · exact h1

theorem inv_banExpireStep (st : State) (d : String) (h : Inv st) :
    Inv (banExpireStep st d) :=
  inv_frame _ _ _ _ _ _ h

theorem inv_init : Inv initState := by
  refine ⟨⟨?_, ?_, ?_, ?_⟩, ?_, ?_, ?_, ?_, ?_⟩
  · intro w hw
    simp [initState] at hw
  · intro w hw
    simp [initState] at hw
  · intro p hp
    simp [initState] at hp
  · intro p hp
    simp [initState] at hp
  · intro d cap hc
    simp [initState, lookupA] at hc
  · intro w c d hw hd hop
    simp [initState, lookupA] at hw
  · simp [initState]
  · simp [initState]
  · simp [initState]

theorem inv_step {st st2 : State} (h : Inv st) (hs : Step st st2) : Inv st2 := by
  cases hs with
  | connect => exact inv_connectStep st h
  | auth ws req dev r => exact inv_authStep st ws req dev r h
  | chat ws msg now => exact inv_chatStep st ws msg now h
  | rename ws newName => exact inv_changeUsernameStep st ws newName h
  | logout ws => exact inv_logoutStep st ws h
  | kick target => exact inv_kickStep st target h
  | removeMsgs target => exact inv_removeMessagesStep st target h
  | closed ws => exact inv_closeEvt st ws h
  | errored ws => exact inv_errorEvt st ws h
  | timer d => exact inv_timerFire st d h
  | banLift d => exact inv_banExpireStep st d h

/-- Every reachable server state satisfies the structural invariant. -/
theorem reachable_inv {st : State} (hr : Reachable st) : Inv st := by
  induction hr with
  | init => exact inv_init
  | step hr hs ih => exact inv_step ih hs

end Srv

namespace Srv

theorem finishAuth_open (st : State) (ws : Nat) (d f : String) (color : Nat)
    (b r : Bool) : (finishAuth st ws d f color b r).openSockets = st.openSockets := by
  unfold finishAuth
  dsimp only
  split <;> rfl

theorem nameGenPath_open (st : State) (ws : Nat) (cd : CData) (req d : String)
    (color : Nat) (b r : Bool) :
    (nameGenPath st ws cd req d color b r).openSockets = st.openSockets := by
  obtain ⟨cu, cdev, cauth⟩ := cd
  unfold nameGenPath
  dsimp only
  rcases cu with _ | u
  · dsimp only
    split
    · rfl
    · rw [finishAuth_open]
  · dsimp only
    by_cases hue : u.isEmpty = true
    · rw [if_pos hue]
      split
      · rfl
      · rw [finishAuth_open]
    · rw [if_neg hue]
      split
      · rfl
      · rw [finishAuth_open]

end Srv

/-- C1: in the `deviceConnections` revision of `server.js`, every
reachable state binds at most one open session to a given device token
(any two open, device-bound sessions with the same token coincide); and
when an `auth` claim arrives from a socket while another open socket is
still registered for the same device token, that other socket is
force-closed by the handler (it is no longer an open socket of the
post-`auth` state), i.e. preemption happens before the claim resolution
proceeds. -/
theorem device_preemption_invariant (st : Srv.State) (hr : Srv.Reachable st) :
    (∀ d w1 w2 c1 c2,
      lookupA st.clients w1 = some c1 → c1.deviceId = some d → w1 ∈ st.openSockets →
      lookupA st.clients w2 = some c2 → c2.deviceId = some d → w2 ∈ st.openSockets →
      w1 = w2) ∧
    (∀ ws cd req r d e,
      lookupA st.clients ws = some cd → d.isEmpty = false →
      d ∉ st.bannedDevices → lookupA st.deviceConnections d = some e →
      e.ws ≠ ws → e.ws ∈ st.openSockets →
      e.ws ∉ (Srv.authStep st ws req (some d) r).openSockets) := by
  constructor
  · intro d w1 w2 c1 c2 h1 hd1 ho1 h2 hd2 ho2
    obtain ⟨e1, he1, hw1⟩ := (Srv.reachable_inv hr).2.2.1 w1 c1 d h1 hd1 ho1
    obtain ⟨e2, he2, hw2⟩ := (Srv.reachable_inv hr).2.2.1 w2 c2 d h2 hd2 ho2
    rw [he1] at he2
    injection he2 with he2
    rw [← hw1, ← hw2, he2]
  · intro ws cd req r d e hws hde hban hdev hne hopen
    unfold Srv.authStep
    rw [hws]
    dsimp only
    rw [if_neg (by rw [hde]; exact Bool.false_ne_true)]
    rw [if_neg hban]
    unfold Srv.authMain
    dsimp only
    rw [hdev]
    dsimp only
    have hcond : e.ws ≠ ws ∧ e.ws ∈ ({ st with disconnectTimeouts := eraseA st.disconnectTimeouts d } : Srv.State).openSockets := ⟨hne, hopen⟩
    simp only [Srv.preempt]
    rw [if_pos hcond]
    split
    · rw [Srv.finishAuth_open]
      exact not_mem_eraseS _ _
    · rw [Srv.nameGenPath_open]
      exact not_mem_eraseS _ _

/-- The reachable three-event state used by the C1 witness: a
connection (socket 0), an authenticated claim binding socket 0 to
device `"dev"` under the name `"alice"`, then a second connection
(socket 1). -/
def stW : Srv.State :=
  Srv.connectStep (Srv.authStep (Srv.connectStep Srv.initState) 0 "alice" (some "dev") false)

theorem stW_reachable : Srv.Reachable stW :=
  Srv.Reachable.step
    (Srv.Reachable.step
      (Srv.Reachable.step Srv.Reachable.init (Srv.Step.connect _))
      (Srv.Step.auth _ 0 "alice" (some "dev") false))
    (Srv.Step.connect _)

/-- Witness for C1 at the reachable state `stW`: socket 0 is the open
session bound to device `"dev"` — so the uniqueness conjunct's
hypotheses are concretely satisfiable — socket 1 is a second open
socket, and an `auth` claim for `"dev"` arriving on socket 1 force-closes
socket 0. -/
theorem device_preemption_invariant_witness :
    lookupA stW.clients 0 = some ⟨some "alice", some "dev", true⟩ ∧
    (0 : Nat) ∈ stW.openSockets ∧
    lookupA stW.clients 1 = some ⟨none, none, false⟩ ∧
    lookupA stW.deviceConnections "dev" = some ⟨0, "alice", 0⟩ ∧
    (0 : Nat) ∉ (Srv.authStep stW 1 "bob" (some "dev") false).openSockets :=
  ⟨by decide, by decide, by decide, by decide,
    (device_preemption_invariant stW stW_reachable).2 1 ⟨none, none, false⟩ "bob" false
      "dev" ⟨0, "alice", 0⟩ (by decide) (by decide) (by decide) (by decide)
      (by decide) (by decide)⟩
